import Mathlib

/-!
A shallow embedding of the protocol engine of `crazyflie_ros`
(`src/crazyflie_cpp/src/Crazyflie.cpp`), together with theorems about the
batch request/acknowledgment engine, parameter writes, log-block id
allocation, TOC discovery, trajectory upload fragmentation and URI parsing.

Modelling conventions:
  * bytes are `Nat` (each meaningful value is `< 256`; the embedding never
    computes arithmetic on them, it only copies and compares, exactly as the
    C++ does with `memcmp` and `==`);
  * time is `ℤ`, counting a fixed subdivision of the second (the claims'
    scenarios use tenths: 1 s = 10 ticks, 0.1 s = 1 tick).  The C++ uses
    `float`/`double` seconds, but the engine only forms
    `baseTime + timePerRequest * N` and compares clock readings against it,
    which the integer model preserves exactly for the claims' values — e.g.
    `1.0f + 0.1f * 5` evaluates to exactly `1.5` in IEEE float (because
    `0.1f * 5` rounds to `0.5`), i.e. exactly 15 tenths;
  * the environment (device plus wall clock) is a pair of functions:
    `oracle k p` is the `Ack` returned by the transport for the `k`-th packet
    send of the call when packet bytes `p` are sent, and `elapsedAt k` is the
    wall-clock time elapsed when the engine reads the clock after the `k`-th
    send;
  * C++ exceptions become `Except`-style results; the member state the object
    keeps when an exception escapes is returned alongside the outcome;
  * the unbounded `while (true)` loop of `handleRequests` is modelled with an
    explicit iteration budget (`fuel`); `ReqOutcome.fuelOut` marks budget
    exhaustion and is an artefact of the embedding, not a program outcome.
-/

/-- The transport acknowledgment (`Crazyradio::Ack`).  `Crazyradio.h` is not
part of `src/`.  Modelled from the spec: "the transport's synchronous
response to a sent packet: success flag, received byte sequence (possibly a
different packet than was sent), and size"; `data` is the received byte
sequence, its length playing the role of `size`. -/
structure Ack where
  ack : Bool
  data : List Nat
  deriving Repr, DecidableEq

instance : Inhabited Ack := ⟨{ ack := false, data := [] }⟩

/-- One entry of `m_batchRequests` (struct filled in by
`Crazyflie::addRequest`, Crazyflie.cpp:588-598): the outgoing packet bytes,
how many payload bytes of a returned ack must match, the finished flag and
the captured ack. -/
structure BatchRequest where
  request : List Nat
  numBytesToMatch : Nat
  finished : Bool
  ack : Ack
  deriving Repr, DecidableEq

instance : Inhabited BatchRequest :=
  ⟨{ request := [], numBytesToMatch := 0, finished := false, ack := default }⟩

/-- Modelled from the spec: `crtp.h` is not in `src/`; the spec (§4.2) says
the matcher requires that the entry's "packet's header byte equals `A`'s
header byte", so the comparison `crtp(ack.data[0]) == crtp(request.request[0])`
of Crazyflie.cpp:656 is modelled as equality of the two header bytes. -/
def crtpHeaderEq (a b : Nat) : Bool := a == b

/-- The static (state-independent) part of the matching condition of
`Crazyflie::handleBatchAck` (Crazyflie.cpp:656-657): the header byte of the
ack equals the header byte of the request, and the first `numBytesToMatch`
payload bytes (bytes 1.., compared by `memcmp(&ack.data[1], &request.request[1],
request.numBytesToMatch)`) agree.  Out-of-range reads yield byte 0. -/
def staticMatchB (a : Ack) (r : BatchRequest) : Bool :=
  crtpHeaderEq (a.data.getD 0 0) (r.request.getD 0 0) &&
    (List.range r.numBytesToMatch).all
      (fun k => a.data.getD (k + 1) 0 == r.request.getD (k + 1) 0)

/-- Recording an ack on an entry (`request.ack = ack; request.finished = true`,
Crazyflie.cpp:659-660). -/
def mark (r : BatchRequest) (a : Ack) : BatchRequest :=
  { r with ack := a, finished := true }

/-- The scan of `Crazyflie::handleBatchAck` over `m_batchRequests`
(Crazyflie.cpp:655-665): find the first entry whose header byte and first
`numBytesToMatch` payload bytes match the ack and which is not yet finished;
record the ack there.  `none` means no entry matched. -/
def batchScan (a : Ack) : List BatchRequest → Option (List BatchRequest)
  | [] => none
  | r :: rs =>
    if staticMatchB a r && !r.finished then
      some (mark r a :: rs)
    else
      (batchScan a rs).map (r :: ·)

/-- `Crazyflie::handleBatchAck` (Crazyflie.cpp:651-672) acting on
`(m_batchRequests, m_numRequestsFinished)`.  The returned `Bool` is `true`
exactly when the ack fell through to the generic unsolicited handler
`handleAck` (Crazyflie.cpp:667); `handleAck` itself only performs
console/telemetry dispatch and never touches the batch state, so only the
fact of the call is modelled. -/
def handleBatchAck (a : Ack) (rs : List BatchRequest) (nf : Nat) :
    List BatchRequest × Nat × Bool :=
  if a.ack then
    match batchScan a rs with
    | some rs' => (rs', nf + 1, false)
    | none => (rs, nf, true)
  else
    (rs, nf, false)

/-- `Crazyflie::startBatchRequest` (Crazyflie.cpp:583-586):
`m_batchRequests.clear()`. -/
def startBatchRequest : List BatchRequest := []

/-- `Crazyflie::addRequest` (Crazyflie.cpp:588-598): append a new entry with
the packet bytes, the prefix length to match, and `finished = false`. -/
def addRequest (batch : List BatchRequest) (data : List Nat)
    (numBytesToMatch : Nat) : List BatchRequest :=
  batch ++ [{ request := data, numBytesToMatch := numBytesToMatch,
              finished := false, ack := default }]

/-- A batch built by `startBatchRequest` followed by one `addRequest` per
`(packet bytes, numBytesToMatch)` specification. -/
def mkBatch (specs : List (List Nat × Nat)) : List BatchRequest :=
  specs.foldl (fun b s => addRequest b s.1 s.2) startBatchRequest

/-- Outcome of `Crazyflie::handleRequests`: normal return, the
`std::runtime_error` thrown on timeout (carrying the message it is
constructed with, Crazyflie.cpp:622/639), or exhaustion of the embedding's
iteration budget. -/
inductive ReqOutcome where
  | done : ReqOutcome
  | timeout (msg : String) : ReqOutcome
  | fuelOut : ReqOutcome
  deriving Repr, DecidableEq

/-- The `Sending` pass of `Crazyflie::handleRequests` (Crazyflie.cpp:612-626):
walk the entries in declaration order; for each not-yet-finished entry send
its packet, offer the returned ack to `handleBatchAck`, and throw
`runtime_error("timeout")` if the elapsed wall-clock time exceeds the
deadline.  `rem` is the number of positions still to visit (the list length
never changes), `i` the current position, `sIdx` the per-call send counter
used to index the environment.  On throw, the batch state at that moment is
returned with the error. -/
def sendPassAux (oracle : Nat → List Nat → Ack) (elapsedAt : Nat → ℤ)
    (deadline : ℤ) :
    Nat → Nat → Nat → List BatchRequest → Nat →
    Except (String × List BatchRequest × Nat) (List BatchRequest × Nat × Nat)
  | 0, _, sIdx, rs, nf => .ok (rs, nf, sIdx)
  | rem + 1, i, sIdx, rs, nf =>
    match rs[i]? with
    | none => .ok (rs, nf, sIdx)
    | some r =>
      if r.finished then
        sendPassAux oracle elapsedAt deadline rem (i + 1) sIdx rs nf
      else
        let a := oracle sIdx r.request
        let res := handleBatchAck a rs nf
        if elapsedAt (sIdx + 1) > deadline then
          .error ("timeout", res.1, res.2.1)
        else
          sendPassAux oracle elapsedAt deadline rem (i + 1) (sIdx + 1)
            res.1 res.2.1

/-- The `Probing` pass of `Crazyflie::handleRequests` (Crazyflie.cpp:628-641):
send the keep-alive byte `0xFF` ten times, offering each returned ack to
`handleBatchAck`, with the same timeout check after each send. -/
def pingPassAux (oracle : Nat → List Nat → Ack) (elapsedAt : Nat → ℤ)
    (deadline : ℤ) :
    Nat → Nat → List BatchRequest → Nat →
    Except (String × List BatchRequest × Nat) (List BatchRequest × Nat × Nat)
  | 0, sIdx, rs, nf => .ok (rs, nf, sIdx)
  | rem + 1, sIdx, rs, nf =>
    let a := oracle sIdx [0xFF]
    let res := handleBatchAck a rs nf
    if elapsedAt (sIdx + 1) > deadline then
      .error ("timeout", res.1, res.2.1)
    else
      pingPassAux oracle elapsedAt deadline rem (sIdx + 1) res.1 res.2.1

/-- The `while (true)` loop of `Crazyflie::handleRequests`
(Crazyflie.cpp:611-648): alternate a sending pass and a probing pass
(10 pings), breaking as soon as `m_numRequestsFinished == m_batchRequests.size()`
is observed at the end of an iteration.  `fuel` bounds the number of loop
iterations. -/
def handleRequestsLoop (oracle : Nat → List Nat → Ack) (elapsedAt : Nat → ℤ)
    (deadline : ℤ) :
    Nat → Bool → Nat → List BatchRequest → Nat → ReqOutcome × List BatchRequest
  | 0, _, _, rs, _ => (.fuelOut, rs)
  | fuel + 1, sendPing, sIdx, rs, nf =>
    if sendPing then
      match pingPassAux oracle elapsedAt deadline 10 sIdx rs nf with
      | .error (m, rs', _) => (.timeout m, rs')
      | .ok (rs', nf', sIdx') =>
        if nf' = rs'.length then (.done, rs')
        else handleRequestsLoop oracle elapsedAt deadline fuel false sIdx' rs' nf'
    else
      match sendPassAux oracle elapsedAt deadline rs.length 0 sIdx rs nf with
      | .error (m, rs', _) => (.timeout m, rs')
      | .ok (rs', nf', sIdx') =>
        if nf' = rs'.length then (.done, rs')
        else handleRequestsLoop oracle elapsedAt deadline fuel true sIdx' rs' nf'

/-- `Crazyflie::handleRequests(baseTime, timePerRequest)`
(Crazyflie.cpp:600-649): compute the deadline
`baseTime + timePerRequest * m_batchRequests.size()`, reset
`m_numRequestsFinished` to 0 and run the loop starting in the sending
state. -/
def handleRequests (oracle : Nat → List Nat → Ack) (elapsedAt : Nat → ℤ)
    (baseTime timePerRequest : ℤ) (fuel : Nat) (rs : List BatchRequest) :
    ReqOutcome × List BatchRequest :=
  handleRequestsLoop oracle elapsedAt
    (baseTime + timePerRequest * (rs.length : ℤ)) fuel false 0 rs 0

/-! ## Trajectory upload (`Crazyflie::trajectoryAdd`, Crazyflie.cpp:296-380) -/

/-- Modelled from the spec: `crtp.h` (declaring `crtpTrajectoryAddRequest`)
is not in `src/`; per §4.6 each fragment packet carries "the segment id, a
... offset into the logical 33-float array, and a count".  Coefficient
values are kept abstract (type `α`): the C++ copies the 32-bit floats
verbatim without any arithmetic, so an opaque value type models the
bit-for-bit copy exactly. -/
structure TrajFragment (α : Type) where
  id : Nat
  offset : Nat
  size : Nat
  values : List α
  deriving Repr, DecidableEq

instance {α : Type} : Inhabited (TrajFragment α) :=
  ⟨{ id := 0, offset := 0, size := 0, values := [] }⟩

/-- The fragment list built by `Crazyflie::trajectoryAdd`
(Crazyflie.cpp:296-380): six fragments with offsets 0,6,12,18,24,30 and
sizes 6,6,6,6,6,3, each carrying `m_lastTrajectoryId` and the values copied
from `duration`, `poly_x[0..7]`, `poly_y[0..7]`, `poly_z[0..7]`,
`poly_yaw[0..7]` exactly as the six `// Part k` blocks do.  Each fragment is
added to the batch with `numBytesToMatch = 3` (id, offset, size). -/
def trajectoryAddFragments {α : Type} [Inhabited α] (lastTrajectoryId : Nat)
    (duration : α) (poly_x poly_y poly_z poly_yaw : List α) :
    List (TrajFragment α) :=
  [ { id := lastTrajectoryId, offset := 0, size := 6,
      values := [duration, poly_x.getD 0 default, poly_x.getD 1 default,
                 poly_x.getD 2 default, poly_x.getD 3 default,
                 poly_x.getD 4 default] },
    { id := lastTrajectoryId, offset := 6, size := 6,
      values := [poly_x.getD 5 default, poly_x.getD 6 default,
                 poly_x.getD 7 default, poly_y.getD 0 default,
                 poly_y.getD 1 default, poly_y.getD 2 default] },
    { id := lastTrajectoryId, offset := 12, size := 6,
      values := [poly_y.getD 3 default, poly_y.getD 4 default,
                 poly_y.getD 5 default, poly_y.getD 6 default,
                 poly_y.getD 7 default, poly_z.getD 0 default] },
    { id := lastTrajectoryId, offset := 18, size := 6,
      values := [poly_z.getD 1 default, poly_z.getD 2 default,
                 poly_z.getD 3 default, poly_z.getD 4 default,
                 poly_z.getD 5 default, poly_z.getD 6 default] },
    { id := lastTrajectoryId, offset := 24, size := 6,
      values := [poly_z.getD 7 default, poly_yaw.getD 0 default,
                 poly_yaw.getD 1 default, poly_yaw.getD 2 default,
                 poly_yaw.getD 3 default, poly_yaw.getD 4 default] },
    { id := lastTrajectoryId, offset := 30, size := 3,
      values := [poly_yaw.getD 5 default, poly_yaw.getD 6 default,
                 poly_yaw.getD 7 default] } ]

/-- Reassembly of fragments by `(offset, count)`, reading the fragment
offsets as indices into the logical 33-float array: position `j` of the
result is the value a fragment with `offset ≤ j < offset + size` places
there. -/
def reassemble {α : Type} [Inhabited α] (frags : List (TrajFragment α)) :
    Nat → Option α := fun j =>
  (frags.find? (fun f => f.offset ≤ j && j < f.offset + f.size)).map
    (fun f => f.values.getD (j - f.offset) default)

/-- The logical 33-float array of a segment:
`[duration, poly_x[0..7], poly_y[0..7], poly_z[0..7], poly_yaw[0..7]]`. -/
def logicalSegment {α : Type} (duration : α)
    (poly_x poly_y poly_z poly_yaw : List α) : List α :=
  duration :: (poly_x ++ poly_y ++ poly_z ++ poly_yaw)

/-! ## Parameter read/write (`Crazyflie::setParam`, Crazyflie.cpp:223-285) -/

/-- The seven primitive parameter types (`Crazyflie.h` enum; the seven cases
are exactly the seven `switch` branches of `setParam`). -/
inductive ParamType where
  | uint8 | int8 | uint16 | int16 | uint32 | int32 | float
  deriving Repr, DecidableEq

/-- One entry of `m_paramTocEntries` (id, declared type, readonly flag,
group and name; names are kept as byte lists). -/
structure ParamTocEntry where
  id : Nat
  ptype : ParamType
  readonly : Bool
  group : List Nat
  name : List Nat
  deriving Repr, DecidableEq

/-- Modelled from the spec: `Crazyflie.h` (declaring the `ParamValue` union)
is not in `src/`; per §3 a `ParamValue` is "always stored as its 4-byte wire
representation, reinterpreted per the entry's declared type", so it is
modelled as the 32-bit storage itself. -/
structure ParamValue where
  bits : Nat
  deriving Repr, DecidableEq

/-- Little-endian byte decomposition of the low `width` bytes of a 32-bit
storage: the wire payload of a typed write. -/
def toLEBytes : Nat → Nat → List Nat
  | 0, _ => []
  | w + 1, bits => bits % 256 :: toLEBytes w (bits / 256)

/-- Modelled from the spec: the typed write packet built by
`crtpParamWriteRequest<T>(id, value)` (`crtp.h`, not in `src/`) — per §4.4
"a typed write packet (wire type selects payload width: 1/2/4 bytes)".
Only the parameter id and the value payload are modelled; the constant
header byte is irrelevant to the claims. -/
structure ParamWriteReq where
  id : Nat
  valueBytes : List Nat
  deriving Repr, DecidableEq

/-- The write request each `switch` branch of `Crazyflie::setParam`
(Crazyflie.cpp:230-273) builds: the template instantiation
`crtpParamWriteRequest<uint8_t|int8_t|...>` fixes the payload width to
`sizeof(T)` — 1 byte for the two 8-bit branches, 2 for the 16-bit branches,
4 for the 32-bit and float branches — and copies the corresponding union
member of `value`, i.e. that many bytes of its 4-byte storage. -/
def mkWriteReq (entry : ParamTocEntry) (value : ParamValue) : ParamWriteReq :=
  match entry.ptype with
  | .uint8 => { id := entry.id, valueBytes := toLEBytes 1 value.bits }
  | .int8 => { id := entry.id, valueBytes := toLEBytes 1 value.bits }
  | .uint16 => { id := entry.id, valueBytes := toLEBytes 2 value.bits }
  | .int16 => { id := entry.id, valueBytes := toLEBytes 2 value.bits }
  | .uint32 => { id := entry.id, valueBytes := toLEBytes 4 value.bits }
  | .int32 => { id := entry.id, valueBytes := toLEBytes 4 value.bits }
  | .float => { id := entry.id, valueBytes := toLEBytes 4 value.bits }

/-- The error thrown by `Crazyflie::setParam` when no TOC entry has the
requested id (Crazyflie.cpp:277-281: `"Could not find parameter with id …"`). -/
inductive SetParamError where
  | unknownParam (id : Nat)
  deriving Repr, DecidableEq

/-- Result of a `setParam` call: the error (if thrown), the batch of write
requests handed to `handleRequests`, and the parameter value cache
(`m_paramValues`) afterwards. -/
structure SetParamOutcome where
  error : Option SetParamError
  batch : List ParamWriteReq
  cache : List (Nat × ParamValue)
  deriving Repr, DecidableEq

/-- Update of the `std::map` `m_paramValues` at a key. -/
def cacheInsert (cache : List (Nat × ParamValue)) (id : Nat)
    (v : ParamValue) : List (Nat × ParamValue) :=
  (id, v) :: cache.filter (fun p => p.1 ≠ id)

/-- Lookup in the `m_paramValues` cache (the local read of §4.4). -/
def cacheLookup (cache : List (Nat × ParamValue)) (id : Nat) :
    Option ParamValue :=
  (cache.find? (fun p => p.1 == id)).map (·.2)

/-- `Crazyflie::setParam(id, value)` (Crazyflie.cpp:223-285):
`startBatchRequest`; walk `m_paramTocEntries`, adding one typed write
request (per the entry's declared type) for every entry whose id matches;
if none matched, throw "Could not find parameter with id …" — before
`handleRequests` is ever called, so nothing is sent and the cache is
untouched; otherwise run the batch and then set `m_paramValues[id] = value`.
The send loop itself is modelled separately by `handleRequests`; here the
batch handed to it is returned. -/
def setParam (entries : List ParamTocEntry) (cache : List (Nat × ParamValue))
    (id : Nat) (value : ParamValue) : SetParamOutcome :=
  let batch := entries.foldl
    (fun acc e => if e.id = id then acc ++ [mkWriteReq e value] else acc) []
  let found := entries.any (fun e => e.id == id)
  if found then
    { error := none, batch := batch, cache := cacheInsert cache id value }
  else
    { error := some (.unknownParam id), batch := [], cache := cache }

/-! ## Log block registration (`Crazyflie::registerLogBlock` /
`unregisterLogBlock`, Crazyflie.cpp:564-579).  The map `m_logBlockCb` is
modelled by its key set, a predicate `Nat → Bool` (the callbacks themselves
never influence allocation). -/

/-- The scan `for (uint8_t id = 0; id < 255; ++id)` of
`Crazyflie::registerLogBlock` (Crazyflie.cpp:567-572): return the first id
not in the map.  If the loop runs out (all of 0..254 taken), control reaches
the end of the non-void function without a `return` — undefined behaviour in
C++ — modelled as `none`. -/
def regScan (used : Nat → Bool) : Nat → Nat → Option Nat
  | _, 0 => none
  | id, rem + 1 => if !used id then some id else regScan used (id + 1) rem

/-- `Crazyflie::registerLogBlock` (allocation part): scan ids 0..254. -/
def registerLogBlock (used : Nat → Bool) : Option Nat := regScan used 0 255

/-- `m_logBlockCb[id] = cb`: the key set gains `id`. -/
def logBlockInsert (used : Nat → Bool) (id : Nat) : Nat → Bool :=
  fun j => j == id || used j

/-- `Crazyflie::unregisterLogBlock(id)` (Crazyflie.cpp:575-579):
`m_logBlockCb.erase(m_logBlockCb.find(id))` — the key set loses `id`. -/
def unregisterLogBlock (used : Nat → Bool) (id : Nat) : Nat → Bool :=
  fun j => if j == id then false else used j

/-- The key set after `k` successful registrations on a fresh connection:
ids 0..k-1. -/
def usedBelow (k : Nat) : Nat → Bool := fun j => j < k

/-! ## TOC discovery (`Crazyflie::requestLogToc` / `requestParamToc`,
Crazyflie.cpp:153-221).  The request/response byte layouts come from
`crtp.h`/`Crazyflie.h`, which are not in `src/`; they are modelled from the
spec (§4.3: an info request whose "response carries the count", then item
requests "tagged by its index", item responses carrying a packed type byte
and a null-separated "group\0name" string).  The concrete header byte
values are immaterial to the claims. -/

/-- Modelled from the spec: header byte of log-TOC packets. -/
def logTocHeader : Nat := 0x5C

/-- Modelled from the spec: header byte of param-TOC packets. -/
def paramTocHeader : Nat := 0x2C

/-- Modelled from the spec: header byte of param value-read packets. -/
def paramReadHeader : Nat := 0x2D

/-- Modelled from the spec: `crtpLogGetInfoRequest` — info command. -/
def logInfoReqBytes : List Nat := [logTocHeader, 1]

/-- Modelled from the spec: `crtpLogGetItemRequest(i)` — item command and
index. -/
def logItemReqBytes (i : Nat) : List Nat := [logTocHeader, 0, i]

/-- Modelled from the spec: `crtpParamTocGetInfoRequest`. -/
def paramInfoReqBytes : List Nat := [paramTocHeader, 1]

/-- Modelled from the spec: `crtpParamTocGetItemRequest(i)`. -/
def paramItemReqBytes (i : Nat) : List Nat := [paramTocHeader, 0, i]

/-- Modelled from the spec: `crtpParamReadRequest(i)`. -/
def paramReadReqBytes (i : Nat) : List Nat := [paramReadHeader, i]

/-- One entry of `m_logTocEntries` (id, type tag byte, group, name; names
kept as byte lists). -/
structure LogTocEntry where
  id : Nat
  type : Nat
  group : List Nat
  name : List Nat
  deriving Repr, DecidableEq

/-- Decoding of one `crtpLogGetItemResponse` (Crazyflie.cpp:173-180):
`entry.id = i`, the type byte, and the null-separated group/name strings
read from the response text; the name starts one past the terminator of the
group (`&response->text[entry.group.size() + 1]`).  Modelled from the spec:
the response payload is `[header, command, id, type, text…]`. -/
def decodeLogItem (i : Nat) (a : Ack) : LogTocEntry :=
  let text := a.data.drop 4
  let g := text.takeWhile (fun b => b ≠ 0)
  { id := i, type := a.data.getD 3 0, group := g,
    name := (text.drop (g.length + 1)).takeWhile (fun b => b ≠ 0) }

/-- Modelled from the spec: the `(ParamType)(r->length | r->type << 2 |
r->sign << 3)` cast of Crazyflie.cpp:212, with the enum values of the
missing `Crazyflie.h` (2 length bits, a float bit, a sign bit).  The claims
do not depend on this mapping. -/
def decodeParamType (b : Nat) : ParamType :=
  if b = 8 then .uint8
  else if b = 0 then .int8
  else if b = 9 then .uint16
  else if b = 1 then .int16
  else if b = 10 then .uint32
  else if b = 2 then .int32
  else if b = 6 then .float
  else .int8

/-- Little-endian recomposition of bytes into the 4-byte storage of a
`ParamValue` (the `memcpy(&v, &val->valueFloat, 4)` of Crazyflie.cpp:218). -/
def fromLEBytes (bs : List Nat) : Nat :=
  bs.foldr (fun b acc => b % 256 + 256 * acc) 0

/-- Decoding of one `crtpParamTocGetItemResponse` (Crazyflie.cpp:210-215).
Modelled from the spec: payload `[header, command, id, packed, text…]` with
the packed byte holding the type bits (low nibble) and the readonly bit
(bit 6). -/
def decodeParamItem (i : Nat) (a : Ack) : ParamTocEntry :=
  let packed := a.data.getD 3 0
  let text := a.data.drop 4
  let g := text.takeWhile (fun b => b ≠ 0)
  { id := i, ptype := decodeParamType (packed % 16),
    readonly := (packed / 64) % 2 == 1, group := g,
    name := (text.drop (g.length + 1)).takeWhile (fun b => b ≠ 0) }

/-- Environment of one `handleRequests` run: the device's replies and the
wall clock readings. -/
structure TocEnv where
  oracle : Nat → List Nat → Ack
  elapsedAt : Nat → ℤ

/-- `Crazyflie::requestLogToc` (Crazyflie.cpp:153-181): an info batch, then
a batch of `len` item requests (matched on 2 bytes each), and only after
that batch completes is `m_logTocEntries` resized and filled.  A timeout
thrown by either `handleRequests` call propagates (the `Except`-style
outcome) and leaves the member list exactly as it was. -/
def requestLogToc (envInfo envItems : TocEnv) (baseTime timePerRequest : ℤ)
    (fuel : Nat) (st : List LogTocEntry) : ReqOutcome × List LogTocEntry :=
  match handleRequests envInfo.oracle envInfo.elapsedAt baseTime timePerRequest
      fuel (mkBatch [(logInfoReqBytes, 1)]) with
  | (.done, rs1) =>
    match handleRequests envItems.oracle envItems.elapsedAt baseTime
        timePerRequest fuel
        (mkBatch ((List.range ((rs1.getD 0 default).ack.data.getD 2 0)).map
          (fun i => (logItemReqBytes i, 2)))) with
    | (.done, rs2) =>
      (.done, (List.range ((rs1.getD 0 default).ack.data.getD 2 0)).map
        (fun i => decodeLogItem i ((rs2.getD i default).ack)))
    | (.timeout m, _) => (.timeout m, st)
    | (.fuelOut, _) => (.fuelOut, st)
  | (.timeout m, _) => (.timeout m, st)
  | (.fuelOut, _) => (.fuelOut, st)

/-- `Crazyflie::requestParamToc` (Crazyflie.cpp:183-221): an info batch,
then a batch interleaving an item request (matched on 2 bytes) and a value
read request (matched on 1 byte) per index; `m_paramTocEntries` and
`m_paramValues` are only written after that batch completes. -/
def requestParamToc (envInfo envItems : TocEnv) (baseTime timePerRequest : ℤ)
    (fuel : Nat) (entries : List ParamTocEntry)
    (values : List (Nat × ParamValue)) :
    ReqOutcome × List ParamTocEntry × List (Nat × ParamValue) :=
  match handleRequests envInfo.oracle envInfo.elapsedAt baseTime timePerRequest
      fuel (mkBatch [(paramInfoReqBytes, 1)]) with
  | (.done, rs1) =>
    match handleRequests envItems.oracle envItems.elapsedAt baseTime
        timePerRequest fuel
        (mkBatch ((List.range ((rs1.getD 0 default).ack.data.getD 2 0)).flatMap
          (fun i => [(paramItemReqBytes i, 2), (paramReadReqBytes i, 1)]))) with
    | (.done, rs2) =>
      (.done,
       (List.range ((rs1.getD 0 default).ack.data.getD 2 0)).map
         (fun i => decodeParamItem i ((rs2.getD (i * 2) default).ack)),
       (List.range ((rs1.getD 0 default).ack.data.getD 2 0)).foldl
         (fun vals i =>
           cacheInsert vals i
             ⟨fromLEBytes (((rs2.getD (i * 2 + 1) default).ack.data.drop 2).take 4)⟩)
         values)
    | (.timeout m, _) => (.timeout m, entries, values)
    | (.fuelOut, _) => (.fuelOut, entries, values)
  | (.timeout m, _) => (.timeout m, entries, values)
  | (.fuelOut, _) => (.fuelOut, entries, values)

/-! ## Connection construction (`Crazyflie::Crazyflie`, Crazyflie.cpp:27-108).
The constructor parses the link URI with two `sscanf` patterns
(`radio://%d/%d/%d%c/%lx`, then `radio://%d/%d/%d%c` with the default
address) and finally `usb://%d`.  The `%d`/`%lx` conversions are modelled as
maximal runs of (hex) digits — the URIs of the claims contain no signs or
whitespace, where `sscanf` behaves identically. -/

/-- Decimal digit test. -/
def isDigitC (c : Char) : Bool := 48 ≤ c.toNat && c.toNat ≤ 57

/-- Hexadecimal digit test. -/
def isHexC (c : Char) : Bool :=
  isDigitC c || (97 ≤ c.toNat && c.toNat ≤ 102) || (65 ≤ c.toNat && c.toNat ≤ 70)

/-- Value of a decimal digit run. -/
def digitsToNat (ds : List Char) : Nat :=
  ds.foldl (fun acc c => 10 * acc + (c.toNat - 48)) 0

/-- Value of one hex digit. -/
def hexVal (c : Char) : Nat :=
  if isDigitC c then c.toNat - 48
  else if 97 ≤ c.toNat then c.toNat - 87
  else c.toNat - 55

/-- Value of a hex digit run. -/
def hexToNat (ds : List Char) : Nat :=
  ds.foldl (fun acc c => 16 * acc + hexVal c) 0

/-- Match a literal character sequence of the `sscanf` format. -/
def dropLit : List Char → List Char → Option (List Char)
  | [], s => some s
  | _ :: _, [] => none
  | l :: ls, c :: cs => if c = l then dropLit ls cs else none

/-- The `%d` conversion: a maximal nonempty run of decimal digits. -/
def scanDec (s : List Char) : Option (Nat × List Char) :=
  let ds := s.takeWhile isDigitC
  if ds.isEmpty then none
  else some (digitsToNat ds, s.dropWhile isDigitC)

/-- The `%lx` conversion: a maximal nonempty run of hex digits. -/
def scanHex (s : List Char) : Option (Nat × List Char) :=
  let ds := s.takeWhile isHexC
  if ds.isEmpty then none
  else some (hexToNat ds, s.dropWhile isHexC)

/-- The `%c` conversion: exactly one character. -/
def scanChar : List Char → Option (Char × List Char)
  | [] => none
  | c :: cs => some (c, cs)

/-- The pattern `radio://%d/%d/%d%c/%lx` (Crazyflie.cpp:48-50); `some`
exactly when all five conversions succeed. -/
def scanRadioFull (s : List Char) : Option (Nat × Nat × Nat × Char × Nat) :=
  match dropLit "radio://".data s with
  | none => none
  | some s =>
    match scanDec s with
    | none => none
    | some (dev, s) =>
      match dropLit ['/'] s with
      | none => none
      | some s =>
        match scanDec s with
        | none => none
        | some (ch, s) =>
          match dropLit ['/'] s with
          | none => none
          | some s =>
            match scanDec s with
            | none => none
            | some (rate, s) =>
              match scanChar s with
              | none => none
              | some (c, s) =>
                match dropLit ['/'] s with
                | none => none
                | some s =>
                  match scanHex s with
                  | none => none
                  | some (addr, _) => some (dev, ch, rate, c, addr)

/-- The pattern `radio://%d/%d/%d%c` (Crazyflie.cpp:52-54). -/
def scanRadioShort (s : List Char) : Option (Nat × Nat × Nat × Char) :=
  match dropLit "radio://".data s with
  | none => none
  | some s =>
    match scanDec s with
    | none => none
    | some (dev, s) =>
      match dropLit ['/'] s with
      | none => none
      | some s =>
        match scanDec s with
        | none => none
        | some (ch, s) =>
          match dropLit ['/'] s with
          | none => none
          | some s =>
            match scanDec s with
            | none => none
            | some (rate, s) =>
              match scanChar s with
              | none => none
              | some (c, _) => some (dev, ch, rate, c)

/-- The pattern `usb://%d` (Crazyflie.cpp:88-89). -/
def scanUsb (s : List Char) : Option Nat :=
  match dropLit "usb://".data s with
  | none => none
  | some s =>
    match scanDec s with
    | none => none
    | some (dev, _) => some dev

/-- `Crazyradio::Datarate`. -/
inductive Datarate where
  | d250K | d1M | d2M
  deriving Repr, DecidableEq

/-- The datarate selection of Crazyflie.cpp:61-69: `m_datarate` keeps its
initial value `Datarate_250KPS` when no branch matches. -/
def mkDatarate (rate : Nat) (c : Char) : Datarate :=
  if rate = 250 && c = 'K' then .d250K
  else if rate = 1 && c = 'M' then .d1M
  else if rate = 2 && c = 'M' then .d2M
  else .d250K

/-- The connection parameters a successfully constructed `Crazyflie` holds
(`m_devId`, `m_channel`, `m_address`, `m_datarate`, and whether the radio or
the USB transport was acquired). -/
structure CfConn where
  devId : Nat
  channel : Nat
  address : Nat
  datarate : Datarate
  usesRadio : Bool
  deriving Repr, DecidableEq

/-- `Crazyflie::Crazyflie(link_uri)` (Crazyflie.cpp:27-108): try the full
radio pattern; on failure try the short radio pattern and set
`m_address = 0xE7E7E7E7E7`; a radio device index `≥ MAX_RADIOS` (16) throws;
otherwise fall back to `usb://%d` (index `≥ MAX_USB` (4) throws), and throw
"Uri is not valid!" if nothing matched.  `m_channel` and `m_datarate` keep
their initial values (0, 250KPS) on the USB path. -/
def mkCrazyflie (uri : String) : Except String CfConn :=
  match scanRadioFull uri.data with
  | some (dev, ch, rate, rc, addr) =>
    if dev ≥ 16 then
      .error "This version does not support that many radios. Adjust MAX_RADIOS and recompile!"
    else
      .ok { devId := dev, channel := ch, address := addr,
            datarate := mkDatarate rate rc, usesRadio := true }
  | none =>
    match scanRadioShort uri.data with
    | some (dev, ch, rate, rc) =>
      if dev ≥ 16 then
        .error "This version does not support that many radios. Adjust MAX_RADIOS and recompile!"
      else
        .ok { devId := dev, channel := ch, address := 0xE7E7E7E7E7,
              datarate := mkDatarate rate rc, usesRadio := true }
    | none =>
      match scanUsb uri.data with
      | some dev =>
        if dev ≥ 4 then
          .error "This version does not support that many CFs over USB. Adjust MAX_USB and recompile!"
        else
          .ok { devId := dev, channel := 0, address := 0xE7E7E7E7E7,
                datarate := .d250K, usesRadio := false }
      | none => .error "Uri is not valid!"

/-! ## Helper lemmas about the batch matcher -/

theorem batchScan_none_iff (a : Ack) : ∀ (rs : List BatchRequest),
    batchScan a rs = none ↔ ∀ r ∈ rs, (staticMatchB a r && !r.finished) = false
  | [] => by simp [batchScan]
  | r :: rs => by
    simp only [batchScan]
    by_cases h : (staticMatchB a r && !r.finished) = true
    · constructor
      · intro hcontra
        rw [if_pos h] at hcontra
        exact absurd hcontra (by simp)
      · intro hall
        exact absurd (hall r (by simp)) (by simp [h])
    · have hf : (staticMatchB a r && !r.finished) = false :=
        Bool.eq_false_iff.mpr h
      rw [if_neg h]
      simp only [Option.map_eq_none']
      rw [batchScan_none_iff a rs]
      constructor
      · intro hall r' hr'
        rcases List.mem_cons.mp hr' with rfl | hm
        · exact hf
        · exact hall r' hm
      · intro hall r' hr'
        exact hall r' (List.mem_cons_of_mem _ hr')

theorem batchScan_hit (a : Ack) : ∀ (rs : List BatchRequest) (e : Nat)
    (he : e < rs.length),
    (∀ j (hj : j < e),
      (staticMatchB a (rs.get ⟨j, Nat.lt_trans hj he⟩) &&
        !(rs.get ⟨j, Nat.lt_trans hj he⟩).finished) = false) →
    staticMatchB a (rs.get ⟨e, he⟩) = true →
    (rs.get ⟨e, he⟩).finished = false →
    batchScan a rs = some (rs.set e (mark (rs.get ⟨e, he⟩) a))
  | r :: rs, 0, he, _, hm, hf => by
    simp only [List.get] at hm hf
    simp [batchScan, hm, hf, List.set]
  | r :: rs, e + 1, he, hpre, hm, hf => by
    have h0 : (staticMatchB a r && !r.finished) = false := hpre 0 (Nat.succ_pos e)
    simp only [List.get] at hm hf
    have ih := batchScan_hit a rs e (Nat.lt_of_succ_lt_succ he)
      (fun j hj => hpre (j + 1) (Nat.succ_lt_succ hj)) hm hf
    simp [batchScan, h0, ih, List.set]

/-- Number of entries that were pending in `old` and are finished in `new`. -/
def newlyFinishedCount (old new : List BatchRequest) : Nat :=
  (old.zip new).countP (fun p => !p.1.finished && p.2.finished)

theorem newlyFinishedCount_self : ∀ (rs : List BatchRequest),
    newlyFinishedCount rs rs = 0
  | [] => rfl
  | r :: rs => by
    have := newlyFinishedCount_self rs
    simp [newlyFinishedCount, List.countP_cons] at this ⊢
    exact this

theorem batchScan_newlyFinishedCount (a : Ack) : ∀ (rs rs' : List BatchRequest),
    batchScan a rs = some rs' → newlyFinishedCount rs rs' = 1
  | [], _, h => by simp [batchScan] at h
  | r :: rs, rs', h => by
    simp only [batchScan] at h
    by_cases hc : (staticMatchB a r && !r.finished) = true
    · rw [if_pos hc] at h
      have hf : r.finished = false := by
        have := hc
        simp only [Bool.and_eq_true, Bool.not_eq_true'] at this
        exact this.2
      cases h
      have htail := newlyFinishedCount_self rs
      simp [newlyFinishedCount, List.countP_cons, mark, hf] at htail ⊢
      exact htail
    · rw [if_neg hc] at h
      rcases Option.map_eq_some'.mp h with ⟨t, ht, rfl⟩
      have := batchScan_newlyFinishedCount a rs t ht
      simp [newlyFinishedCount, List.countP_cons] at this ⊢
      exact this

/-- C2 (amended): for every successful ack (ack flag set) offered to the
batch matcher, at most one not-yet-finished entry is marked finished; and if
no pending entry's header byte and first `numBytesToMatch` payload bytes
match the ack, no entry is marked finished, the finished counter is
unchanged, and the ack is forwarded to the generic unsolicited handler
`handleAck` exactly once (third component `true`).  An unsuccessful ack
(`ack = false`) is ignored entirely by `handleBatchAck`: nothing is marked
and nothing is forwarded. -/
theorem handleBatchAck_at_most_one_match (a : Ack) (rs : List BatchRequest)
    (nf : Nat) (hack : a.ack = true) :
    newlyFinishedCount rs (handleBatchAck a rs nf).1 ≤ 1 ∧
    ((∀ r ∈ rs, (staticMatchB a r && !r.finished) = false) →
      handleBatchAck a rs nf = (rs, nf, true)) := by
  constructor
  · simp only [handleBatchAck, hack, if_true]
    cases h : batchScan a rs with
    | none =>
      show newlyFinishedCount rs rs ≤ 1
      rw [newlyFinishedCount_self rs]
      exact Nat.zero_le 1
    | some rs' =>
      show newlyFinishedCount rs rs' ≤ 1
      rw [batchScan_newlyFinishedCount a rs rs' h]
  · intro hno
    have hn : batchScan a rs = none := (batchScan_none_iff a rs).mpr hno
    simp [handleBatchAck, hack, hn]

/-- C2 witness: a successful ack matching nothing in a one-entry batch is
forwarded to `handleAck` (and the batch state is untouched). -/
theorem handleBatchAck_at_most_one_match_witness :
    handleBatchAck ⟨true, [9, 9]⟩ (mkBatch [([7, 8], 1)]) 0
      = (mkBatch [([7, 8], 1)], 0, true) :=
  (handleBatchAck_at_most_one_match ⟨true, [9, 9]⟩ (mkBatch [([7, 8], 1)]) 0
    rfl).2 (by decide)

/-- C2 counterexample: an unsuccessful ack (`ack` flag clear) offered to the
batch matcher matches no pending entry, yet it is NOT forwarded to the
generic unsolicited handler (the forwarded flag is `false`, i.e. zero
forwards, not exactly one): the claim's "forwarded … exactly once" fails for
acks whose success flag is clear, because `handleBatchAck` ignores them
entirely (Crazyflie.cpp:654 guards everything behind `if (ack.ack)`). -/
theorem handleBatchAck_failed_ack_not_forwarded :
    ((mkBatch [([9, 9], 1)]).all
      (fun r => !(staticMatchB ⟨false, [1, 2, 3]⟩ r && !r.finished))) = true ∧
    (handleBatchAck ⟨false, [1, 2, 3]⟩ (mkBatch [([9, 9], 1)]) 0).2.2 = false := by
  decide

theorem regScan_reaches : ∀ (used : Nat → Bool) (rem start e : Nat),
    e < rem → (∀ j, j < e → used (start + j) = true) →
    used (start + e) = false → regScan used start rem = some (start + e)
  | used, rem + 1, start, 0, _, _, hfree => by
    simp at hfree
    simp [regScan, hfree]
  | used, rem + 1, start, e + 1, hlt, htaken, hfree => by
    have h0 : used start = true := by simpa using htaken 0 (Nat.succ_pos e)
    have ih := regScan_reaches used rem (start + 1) e
      (Nat.lt_of_succ_lt_succ hlt)
      (fun j hj => by
        have := htaken (j + 1) (Nat.succ_lt_succ hj)
        simpa [Nat.add_assoc, Nat.add_comm 1 j] using this)
      (by simpa [Nat.add_assoc, Nat.add_comm 1 e] using hfree)
    simp [regScan, h0, ih, Nat.add_assoc, Nat.add_comm 1 e]

theorem regScan_none : ∀ (used : Nat → Bool) (rem start : Nat),
    (∀ j, j < rem → used (start + j) = true) → regScan used start rem = none
  | _, 0, _, _ => rfl
  | used, rem + 1, start, htaken => by
    have h0 : used start = true := by simpa using htaken 0 (Nat.succ_pos rem)
    have ih := regScan_none used rem (start + 1)
      (fun j hj => by
        have := htaken (j + 1) (Nat.succ_lt_succ hj)
        simpa [Nat.add_assoc, Nat.add_comm 1 j] using this)
    simp [regScan, h0, ih]

theorem registerLogBlock_usedBelow (k : Nat) (hk : k < 255) :
    registerLogBlock (usedBelow k) = some k := by
  have := regScan_reaches (usedBelow k) 255 0 k hk
    (fun j hj => by simp [usedBelow, hj])
    (by simp [usedBelow])
  simpa [registerLogBlock] using this

/-- C6: log-block id allocation (`Crazyflie::registerLogBlock`,
Crazyflie.cpp:564-573).  On a fresh connection the `k`-th registration
(ids `0..k-1` taken, modelled by `usedBelow k`) returns the lowest unused
id, namely `k`, and updates the key set to `usedBelow (k+1)` — so 255
successive registrations return ids 0,…,254 in increasing order.  With all
255 allocatable ids in use the scan `for (uint8_t id = 0; id < 255; ++id)`
runs out and control reaches the end of the non-void function with NO
defined result (modelled by `none`): the code does not fail with a
resource-exhaustion error, it has undefined behaviour.  After
`unregisterLogBlock id` of a registered id in the full state, the next
registration returns exactly that id again. -/
theorem registerLogBlock_allocation :
    ((List.range 255).all
      (fun k => registerLogBlock (usedBelow k) == some k)) = true ∧
    ((List.range 255).all (fun k => (List.range 256).all
      (fun j => logBlockInsert (usedBelow k) k j == usedBelow (k + 1) j))) = true ∧
    registerLogBlock (usedBelow 255) = none ∧
    ((List.range 255).all (fun id =>
      registerLogBlock (unregisterLogBlock (usedBelow 255) id) == some id)) = true := by
  refine ⟨?_, ?_, ?_, ?_⟩
  · refine List.all_eq_true.mpr (fun k hk => ?_)
    rw [registerLogBlock_usedBelow k (List.mem_range.mp hk)]
    exact beq_self_eq_true _
  · refine List.all_eq_true.mpr (fun k _ => ?_)
    refine List.all_eq_true.mpr (fun j _ => ?_)
    have : logBlockInsert (usedBelow k) k j = usedBelow (k + 1) j := by
      by_cases h : j = k
      · simp [logBlockInsert, usedBelow, h]
      · have hiff : (j < k) ↔ (j < k + 1) := by omega
        simp [logBlockInsert, usedBelow, h, hiff]
    rw [this]
    exact beq_self_eq_true _
  · refine regScan_none (usedBelow 255) 255 0 (fun j hj => by simp [usedBelow, hj])
  · refine List.all_eq_true.mpr (fun id hid => ?_)
    have hid255 := List.mem_range.mp hid
    have := regScan_reaches (unregisterLogBlock (usedBelow 255) id) 255 0 id hid255
      (fun j hj => by
        simp only [unregisterLogBlock, usedBelow, Nat.zero_add]
        have hne : (j == id) = false := by
          simp only [beq_eq_false_iff_ne, ne_eq]
          omega
        simp [hne]
        omega)
      (by simp [unregisterLogBlock, usedBelow])
    simpa [registerLogBlock] using this

/-- C5 (amended): `Crazyflie::trajectoryAdd` (Crazyflie.cpp:296-380)
fragments the 33-float segment
`[duration, poly_x[0..7], poly_y[0..7], poly_z[0..7], poly_yaw[0..7]]` into
exactly 6 batch packets with `(offset, size)` =
(0,6), (6,6), (12,6), (18,6), (24,6), (30,3), each carrying the current
segment id and an offset counted in floats (an index into the logical
33-float array — NOT a byte offset); reassembling the fragments by
`(offset, count)` with float-index offsets reproduces the original 33
values exactly. -/
theorem trajectoryAdd_fragmentation {α : Type} [Inhabited α] (tid : Nat)
    (d x0 x1 x2 x3 x4 x5 x6 x7 y0 y1 y2 y3 y4 y5 y6 y7
      z0 z1 z2 z3 z4 z5 z6 z7 w0 w1 w2 w3 w4 w5 w6 w7 : α) :
    ((trajectoryAddFragments tid d [x0, x1, x2, x3, x4, x5, x6, x7]
        [y0, y1, y2, y3, y4, y5, y6, y7] [z0, z1, z2, z3, z4, z5, z6, z7]
        [w0, w1, w2, w3, w4, w5, w6, w7]).map (fun f => (f.offset, f.size))
      = [(0, 6), (6, 6), (12, 6), (18, 6), (24, 6), (30, 3)]) ∧
    ((trajectoryAddFragments tid d [x0, x1, x2, x3, x4, x5, x6, x7]
        [y0, y1, y2, y3, y4, y5, y6, y7] [z0, z1, z2, z3, z4, z5, z6, z7]
        [w0, w1, w2, w3, w4, w5, w6, w7]).map (fun f => f.id)
      = [tid, tid, tid, tid, tid, tid]) ∧
    (∀ j, j < 33 →
      reassemble (trajectoryAddFragments tid d [x0, x1, x2, x3, x4, x5, x6, x7]
          [y0, y1, y2, y3, y4, y5, y6, y7] [z0, z1, z2, z3, z4, z5, z6, z7]
          [w0, w1, w2, w3, w4, w5, w6, w7]) j
        = some ((logicalSegment d [x0, x1, x2, x3, x4, x5, x6, x7]
            [y0, y1, y2, y3, y4, y5, y6, y7] [z0, z1, z2, z3, z4, z5, z6, z7]
            [w0, w1, w2, w3, w4, w5, w6, w7]).getD j default)) := by
  refine ⟨rfl, rfl, ?_⟩
  intro j hj
  interval_cases j <;> rfl

/-- C5 witness: for a concrete segment (values 100..132) reassembling at
float index 6 returns the original value `poly_x[5] = 106`. -/
theorem trajectoryAdd_fragmentation_witness :
    reassemble (trajectoryAddFragments 0 (100 : Nat)
        [101, 102, 103, 104, 105, 106, 107, 108]
        [109, 110, 111, 112, 113, 114, 115, 116]
        [117, 118, 119, 120, 121, 122, 123, 124]
        [125, 126, 127, 128, 129, 130, 131, 132]) 6
      = some ((logicalSegment (100 : Nat)
          [101, 102, 103, 104, 105, 106, 107, 108]
          [109, 110, 111, 112, 113, 114, 115, 116]
          [117, 118, 119, 120, 121, 122, 123, 124]
          [125, 126, 127, 128, 129, 130, 131, 132]).getD 6 default) :=
  (trajectoryAdd_fragmentation 0 100 101 102 103 104 105 106 107 108
    109 110 111 112 113 114 115 116 117 118 119 120 121 122 123 124
    125 126 127 128 129 130 131 132).2.2 6 (by decide)

/-- C5 counterexample: the claim calls the packet's offset field "a byte
offset into the logical 33-float array", but the second fragment built by
`trajectoryAdd` begins with the value at float index 6 of the logical array
(byte offset 4 × 6 = 24) while its offset field holds 6: the field is a
float index, not a byte offset. -/
theorem trajectoryAdd_offset_not_byte_counterexample :
    ((trajectoryAddFragments 0 (100 : Nat)
        [101, 102, 103, 104, 105, 106, 107, 108]
        [109, 110, 111, 112, 113, 114, 115, 116]
        [117, 118, 119, 120, 121, 122, 123, 124]
        [125, 126, 127, 128, 129, 130, 131, 132]).getD 1 default).values.getD 0 0
      = (logicalSegment (100 : Nat)
          [101, 102, 103, 104, 105, 106, 107, 108]
          [109, 110, 111, 112, 113, 114, 115, 116]
          [117, 118, 119, 120, 121, 122, 123, 124]
          [125, 126, 127, 128, 129, 130, 131, 132]).getD 6 0 ∧
    ((trajectoryAddFragments 0 (100 : Nat)
        [101, 102, 103, 104, 105, 106, 107, 108]
        [109, 110, 111, 112, 113, 114, 115, 116]
        [117, 118, 119, 120, 121, 122, 123, 124]
        [125, 126, 127, 128, 129, 130, 131, 132]).getD 1 default).offset = 6 ∧
    ((trajectoryAddFragments 0 (100 : Nat)
        [101, 102, 103, 104, 105, 106, 107, 108]
        [109, 110, 111, 112, 113, 114, 115, 116]
        [117, 118, 119, 120, 121, 122, 123, 124]
        [125, 126, 127, 128, 129, 130, 131, 132]).getD 1 default).offset ≠ 4 * 6 := by
  decide

/-! ## Helper lemmas about `setParam` -/

theorem foldl_writeReq (v : ParamValue) (id : Nat) :
    ∀ (entries : List ParamTocEntry) (acc : List ParamWriteReq),
    entries.foldl (fun acc e => if e.id = id then acc ++ [mkWriteReq e v] else acc) acc
      = acc ++ (entries.filter (fun e => e.id == id)).map (fun e => mkWriteReq e v)
  | [], acc => by simp
  | e :: entries, acc => by
    by_cases h : e.id = id
    · simp only [List.foldl_cons, if_pos h, List.filter_cons,
        show (e.id == id) = true by simpa using h, if_true]
      rw [foldl_writeReq v id entries (acc ++ [mkWriteReq e v])]
      simp
    · simp only [List.foldl_cons, if_neg h, List.filter_cons,
        show (e.id == id) = false by simpa using h]
      rw [foldl_writeReq v id entries acc]
      simp

theorem setParam_eq (entries : List ParamTocEntry)
    (cache : List (Nat × ParamValue)) (id : Nat) (v : ParamValue) :
    setParam entries cache id v
      = if entries.any (fun e => e.id == id) then
          { error := none,
            batch := (entries.filter (fun e => e.id == id)).map
              (fun e => mkWriteReq e v),
            cache := cacheInsert cache id v }
        else { error := some (.unknownParam id), batch := [], cache := cache } := by
  unfold setParam
  rw [foldl_writeReq]
  by_cases h : entries.any (fun e => e.id == id) = true <;> simp [h]

theorem filter_id_singleton_any {entries : List ParamTocEntry} {id : Nat}
    {e : ParamTocEntry} (hfilter : entries.filter (fun e => e.id == id) = [e]) :
    entries.any (fun e => e.id == id) = true := by
  have he : e ∈ entries.filter (fun e => e.id == id) := by
    rw [hfilter]; exact List.mem_singleton_self e
  rcases List.mem_filter.mp he with ⟨hmem, hid⟩
  exact List.any_eq_true.mpr ⟨e, hmem, hid⟩

/-- Width of a typed write request's value payload per parameter type, as
the claim states it: 1, 1, 2, 2, 4, 4, 4 bytes for uint8, int8, uint16,
int16, uint32, int32, float respectively. -/
def paramWireWidth : ParamType → Nat
  | .uint8 => 1
  | .int8 => 1
  | .uint16 => 2
  | .int16 => 2
  | .uint32 => 4
  | .int32 => 4
  | .float => 4

theorem toLEBytes_length : ∀ (w bits : Nat), (toLEBytes w bits).length = w
  | 0, _ => rfl
  | w + 1, bits => by simp [toLEBytes, toLEBytes_length w]

theorem mkWriteReq_width (e : ParamTocEntry) (v : ParamValue) :
    (mkWriteReq e v).valueBytes.length = paramWireWidth e.ptype := by
  cases h : e.ptype <;> simp [mkWriteReq, h, paramWireWidth, toLEBytes_length]

theorem cacheLookup_insert (cache : List (Nat × ParamValue)) (id : Nat)
    (v : ParamValue) : cacheLookup (cacheInsert cache id v) id = some v := by
  simp [cacheLookup, cacheInsert, List.find?]

/-- C7: `Crazyflie::setParam(id, value)` (Crazyflie.cpp:223-285) with an id
for which no parameter TOC entry exists throws "Could not find parameter
with id …" before `handleRequests` is ever reached — so no packet is sent
(empty batch) and the local value cache is unchanged; when the TOC entry
with that id exists (uniquely — TOC ids are distinct by construction,
Crazyflie.cpp:211), exactly one typed write request, built per the entry's
declared type, is handed to `handleRequests` as a one-entry batch. -/
theorem setParam_unknown_fatal_or_single (entries : List ParamTocEntry)
    (cache : List (Nat × ParamValue)) (id : Nat) (v : ParamValue) :
    ((¬ ∃ e ∈ entries, e.id = id) →
      setParam entries cache id v
        = { error := some (.unknownParam id), batch := [], cache := cache }) ∧
    (∀ e, entries.filter (fun e => e.id == id) = [e] →
      (setParam entries cache id v).error = none ∧
      (setParam entries cache id v).batch = [mkWriteReq e v]) := by
  constructor
  · intro hno
    have hany : entries.any (fun e => e.id == id) = false := by
      by_contra h
      rcases List.any_eq_true.mp (Bool.of_not_eq_false h) with ⟨e, hmem, hid⟩
      exact hno ⟨e, hmem, by simpa using hid⟩
    rw [setParam_eq, hany]
    simp
  · intro e hfilter
    rw [setParam_eq, filter_id_singleton_any hfilter, if_pos rfl, hfilter]
    simp

/-- C7 witness: writing to id 9 when only id 3 is in the TOC fails with the
unknown-parameter error, sends nothing and leaves the cache unchanged. -/
theorem setParam_unknown_fatal_or_single_witness :
    setParam [⟨3, ParamType.uint16, false, [], []⟩] [(7, ⟨5⟩)] 9 ⟨1⟩
      = { error := some (.unknownParam 9), batch := [],
          cache := [(7, ⟨5⟩)] } :=
  (setParam_unknown_fatal_or_single [⟨3, ParamType.uint16, false, [], []⟩]
    [(7, ⟨5⟩)] 9 ⟨1⟩).1 (by decide)

/-- C8: for every parameter type, a successful `setParam(id, v)` (the TOC
entry with that id exists, uniquely) followed by a local cache read of `id`
returns `v` unchanged (`m_paramValues[id] = value`, Crazyflie.cpp:284, stores
the full 4-byte union), and the on-wire value width of the single write
request is `paramWireWidth` of the entry's declared type — 1, 1, 2, 2, 4, 4, 4
bytes for uint8, int8, uint16, int16, uint32, int32, float respectively. -/
theorem setParam_cache_roundtrip_and_width (entries : List ParamTocEntry)
    (cache : List (Nat × ParamValue)) (id : Nat) (v : ParamValue)
    (e : ParamTocEntry)
    (hfilter : entries.filter (fun e => e.id == id) = [e]) :
    cacheLookup (setParam entries cache id v).cache id = some v ∧
    (setParam entries cache id v).batch.map (fun r => r.valueBytes.length)
      = [paramWireWidth e.ptype] ∧
    paramWireWidth .uint8 = 1 ∧ paramWireWidth .int8 = 1 ∧
    paramWireWidth .uint16 = 2 ∧ paramWireWidth .int16 = 2 ∧
    paramWireWidth .uint32 = 4 ∧ paramWireWidth .int32 = 4 ∧
    paramWireWidth .float = 4 := by
  have hany := filter_id_singleton_any hfilter
  refine ⟨?_, ?_, rfl, rfl, rfl, rfl, rfl, rfl, rfl⟩
  · rw [setParam_eq, hany, if_pos rfl]
    exact cacheLookup_insert cache id v
  · rw [setParam_eq, hany, if_pos rfl, hfilter]
    simp [mkWriteReq_width]

/-- C8 witness: a float-typed write of the 32-bit pattern 1078530011
(≈ the bits of π) to id 3 round-trips through the cache and goes on the
wire 4 bytes wide. -/
theorem setParam_cache_roundtrip_and_width_witness :
    cacheLookup (setParam [⟨3, ParamType.float, false, [], []⟩] [] 3
      ⟨1078530011⟩).cache 3 = some ⟨1078530011⟩ ∧
    (setParam [⟨3, ParamType.float, false, [], []⟩] [] 3
      ⟨1078530011⟩).batch.map (fun r => r.valueBytes.length)
      = [paramWireWidth ParamType.float] ∧
    paramWireWidth .uint8 = 1 ∧ paramWireWidth .int8 = 1 ∧
    paramWireWidth .uint16 = 2 ∧ paramWireWidth .int16 = 2 ∧
    paramWireWidth .uint32 = 4 ∧ paramWireWidth .int32 = 4 ∧
    paramWireWidth .float = 4 :=
  setParam_cache_roundtrip_and_width [⟨3, ParamType.float, false, [], []⟩]
    [] 3 ⟨1078530011⟩ ⟨3, ParamType.float, false, [], []⟩ (by decide)

/-! ## Helper lemmas about the URI scanners -/

theorem dropLit_append : ∀ (l s : List Char), dropLit l (l ++ s) = some s
  | [], s => rfl
  | c :: ls, s => by simp [dropLit, dropLit_append ls s]

theorem takeWhile_all_append {α : Type} (p : α → Bool) :
    ∀ (d rest : List α), (∀ c ∈ d, p c = true) →
    (∀ c ∈ rest.take 1, p c = false) →
    (d ++ rest).takeWhile p = d ∧ (d ++ rest).dropWhile p = rest
  | [], [], _, _ => ⟨rfl, rfl⟩
  | [], c :: rest, _, hr => by
    have hc : p c = false := hr c (by simp)
    simp [List.takeWhile_cons, List.dropWhile_cons, hc]
  | x :: d, rest, hd, hr => by
    have hx : p x = true := hd x (by simp)
    have ih := takeWhile_all_append p d rest
      (fun c hc => hd c (List.mem_cons_of_mem _ hc)) hr
    simp [List.takeWhile_cons, List.dropWhile_cons, hx, ih.1, ih.2]

theorem scanDec_digits (d rest : List Char) (hne : d ≠ [])
    (hd : ∀ c ∈ d, isDigitC c = true)
    (hr : ∀ c ∈ rest.take 1, isDigitC c = false) :
    scanDec (d ++ rest) = some (digitsToNat d, rest) := by
  have h := takeWhile_all_append isDigitC d rest hd hr
  simp [scanDec, h.1, h.2, hne]

/-- C10: for every radio URI of the form `radio://<dev>/<channel>/<rate><K|M>`
(decimal digit runs for the three numbers, suffix `K` or `M`) that omits the
optional trailing hex address segment, the `Crazyflie` constructor
(Crazyflie.cpp:48-56) falls back from the five-conversion pattern to the
four-conversion pattern and sets the connection's 40-bit network address to
the default `0xE7E7E7E7E7` (the device index must be below `MAX_RADIOS` for
construction to succeed at all, Crazyflie.cpp:71-73). -/
theorem mkCrazyflie_default_address (d1 d2 d3 : List Char) (c : Char)
    (h1ne : d1 ≠ []) (h1d : ∀ ch ∈ d1, isDigitC ch = true)
    (h2ne : d2 ≠ []) (h2d : ∀ ch ∈ d2, isDigitC ch = true)
    (h3ne : d3 ≠ []) (h3d : ∀ ch ∈ d3, isDigitC ch = true)
    (hc : c = 'K' ∨ c = 'M') (hdev : digitsToNat d1 < 16) :
    (mkCrazyflie (String.mk
        ("radio://".data ++ (d1 ++ '/' :: (d2 ++ '/' :: (d3 ++ [c])))))).map
      (fun conn => conn.address) = Except.ok 0xE7E7E7E7E7 := by
  have hcd : isDigitC c = false := by
    rcases hc with rfl | rfl <;> decide
  have hslash : ∀ (X : List Char), ∀ ch ∈ ('/' :: X).take 1, isDigitC ch = false := by
    intro X ch hch
    simp only [List.take, List.mem_singleton] at hch
    rw [hch]
    decide
  have hcrest : ∀ ch ∈ ([c] : List Char).take 1, isDigitC ch = false := by
    intro ch hch
    simp only [List.take, List.take_nil, List.mem_singleton] at hch
    rw [hch]
    exact hcd
  have hs1 : scanDec (d1 ++ '/' :: (d2 ++ '/' :: (d3 ++ [c])))
      = some (digitsToNat d1, '/' :: (d2 ++ '/' :: (d3 ++ [c]))) :=
    scanDec_digits d1 _ h1ne h1d (hslash _)
  have hs2 : scanDec (d2 ++ '/' :: (d3 ++ [c]))
      = some (digitsToNat d2, '/' :: (d3 ++ [c])) :=
    scanDec_digits d2 _ h2ne h2d (hslash _)
  have hs3 : scanDec (d3 ++ [c]) = some (digitsToNat d3, [c]) :=
    scanDec_digits d3 [c] h3ne h3d hcrest
  have hfull : scanRadioFull
      ("radio://".data ++ (d1 ++ '/' :: (d2 ++ '/' :: (d3 ++ [c])))) = none := by
    unfold scanRadioFull
    simp only [dropLit_append, List.append_eq, List.nil_append, hs1, hs2, hs3,
      dropLit, scanChar, reduceCtorEq, if_true, eq_self_iff_true]
  have hshort : scanRadioShort
      ("radio://".data ++ (d1 ++ '/' :: (d2 ++ '/' :: (d3 ++ [c]))))
      = some (digitsToNat d1, digitsToNat d2, digitsToNat d3, c) := by
    unfold scanRadioShort
    simp only [dropLit_append, List.append_eq, List.nil_append, hs1, hs2, hs3,
      dropLit, scanChar, reduceCtorEq, if_true, eq_self_iff_true]
  unfold mkCrazyflie
  rw [show (String.mk
      ("radio://".data ++ (d1 ++ '/' :: (d2 ++ '/' :: (d3 ++ [c]))))).data
    = "radio://".data ++ (d1 ++ '/' :: (d2 ++ '/' :: (d3 ++ [c]))) from rfl]
  rw [hfull, hshort]
  have hlt : ¬ (digitsToNat d1 ≥ 16) := by omega
  simp [hlt, Except.map]

/-- C10 witness: `radio://0/100/2M` yields the default address
`0xE7E7E7E7E7`. -/
theorem mkCrazyflie_default_address_witness :
    (mkCrazyflie (String.mk
        ("radio://".data ++ (['0'] ++ '/' :: (['1', '0', '0'] ++ '/' :: (['2'] ++ ['M'])))))).map
      (fun conn => conn.address) = Except.ok 0xE7E7E7E7E7 :=
  mkCrazyflie_default_address ['0'] ['1', '0', '0'] ['2'] 'M'
    (by decide) (by decide) (by decide) (by decide) (by decide) (by decide)
    (Or.inr rfl) (by decide)

/-! ## Helper lemmas: `handleRequests` throws only past the deadline -/

theorem sendPassAux_error_elapsed (oracle : Nat → List Nat → Ack)
    (elapsedAt : Nat → ℤ) (deadline : ℤ) :
    ∀ (rem i sIdx : Nat) (rs : List BatchRequest) (nf : Nat) (m : String)
      (rs' : List BatchRequest) (nf' : Nat),
    sendPassAux oracle elapsedAt deadline rem i sIdx rs nf
      = Except.error (m, rs', nf') →
    m = "timeout" ∧ ∃ k, elapsedAt k > deadline
  | 0, i, sIdx, rs, nf, m, rs', nf', h => by simp [sendPassAux] at h
  | rem + 1, i, sIdx, rs, nf, m, rs', nf', h => by
    simp only [sendPassAux] at h
    cases hri : rs[i]? with
    | none => rw [hri] at h; simp at h
    | some r =>
      rw [hri] at h
      by_cases hf : r.finished = true
      · simp only [hf, if_true] at h
        exact sendPassAux_error_elapsed oracle elapsedAt deadline rem (i + 1)
          sIdx rs nf m rs' nf' h
      · simp only [hf, if_false, Bool.false_eq_true] at h
        by_cases ht : elapsedAt (sIdx + 1) > deadline
        · rw [if_pos ht] at h
          simp only [Except.error.injEq, Prod.mk.injEq] at h
          exact ⟨h.1.symm, sIdx + 1, ht⟩
        · rw [if_neg ht] at h
          exact sendPassAux_error_elapsed oracle elapsedAt deadline rem (i + 1)
            (sIdx + 1) _ _ m rs' nf' h

theorem pingPassAux_error_elapsed (oracle : Nat → List Nat → Ack)
    (elapsedAt : Nat → ℤ) (deadline : ℤ) :
    ∀ (rem sIdx : Nat) (rs : List BatchRequest) (nf : Nat) (m : String)
      (rs' : List BatchRequest) (nf' : Nat),
    pingPassAux oracle elapsedAt deadline rem sIdx rs nf
      = Except.error (m, rs', nf') →
    m = "timeout" ∧ ∃ k, elapsedAt k > deadline
  | 0, sIdx, rs, nf, m, rs', nf', h => by simp [pingPassAux] at h
  | rem + 1, sIdx, rs, nf, m, rs', nf', h => by
    simp only [pingPassAux] at h
    by_cases ht : elapsedAt (sIdx + 1) > deadline
    · rw [if_pos ht] at h
      simp only [Except.error.injEq, Prod.mk.injEq] at h
      exact ⟨h.1.symm, sIdx + 1, ht⟩
    · rw [if_neg ht] at h
      exact pingPassAux_error_elapsed oracle elapsedAt deadline rem (sIdx + 1)
        _ _ m rs' nf' h

theorem handleRequestsLoop_timeout_elapsed (oracle : Nat → List Nat → Ack)
    (elapsedAt : Nat → ℤ) (deadline : ℤ) :
    ∀ (fuel : Nat) (sp : Bool) (sIdx : Nat) (rs : List BatchRequest) (nf : Nat)
      (m : String),
    (handleRequestsLoop oracle elapsedAt deadline fuel sp sIdx rs nf).1
      = ReqOutcome.timeout m →
    m = "timeout" ∧ ∃ k, elapsedAt k > deadline
  | 0, sp, sIdx, rs, nf, m, h => by simp [handleRequestsLoop] at h
  | fuel + 1, sp, sIdx, rs, nf, m, h => by
    simp only [handleRequestsLoop] at h
    by_cases hsp : sp = true
    · rw [if_pos hsp] at h
      cases hp : pingPassAux oracle elapsedAt deadline 10 sIdx rs nf with
      | error e =>
        obtain ⟨m', rs', nf'⟩ := e
        rw [hp] at h
        simp only [ReqOutcome.timeout.injEq] at h
        rcases pingPassAux_error_elapsed oracle elapsedAt deadline 10 sIdx rs nf
          m' rs' nf' hp with ⟨hm, hk⟩
        exact ⟨h ▸ hm, hk⟩
      | ok t =>
        obtain ⟨rs', nf', sIdx'⟩ := t
        rw [hp] at h
        simp only at h
        by_cases hfin : nf' = rs'.length
        · rw [if_pos hfin] at h
          simp at h
        · rw [if_neg hfin] at h
          exact handleRequestsLoop_timeout_elapsed oracle elapsedAt deadline
            fuel false sIdx' rs' nf' m h
    · rw [if_neg hsp] at h
      cases hp : sendPassAux oracle elapsedAt deadline rs.length 0 sIdx rs nf with
      | error e =>
        obtain ⟨m', rs', nf'⟩ := e
        rw [hp] at h
        simp only [ReqOutcome.timeout.injEq] at h
        rcases sendPassAux_error_elapsed oracle elapsedAt deadline rs.length 0
          sIdx rs nf m' rs' nf' hp with ⟨hm, hk⟩
        exact ⟨h ▸ hm, hk⟩
      | ok t =>
        obtain ⟨rs', nf', sIdx'⟩ := t
        rw [hp] at h
        simp only at h
        by_cases hfin : nf' = rs'.length
        · rw [if_pos hfin] at h
          simp at h
        · rw [if_neg hfin] at h
          exact handleRequestsLoop_timeout_elapsed oracle elapsedAt deadline
            fuel true sIdx' rs' nf' m h

/-- C4 (amended): `handleRequests(baseTime, timePerRequest)`
(Crazyflie.cpp:600-649) fails fatally only when an observed elapsed
wall-clock time exceeds `baseTime + timePerRequest × (number of batch
entries)` — in particular a 5-entry batch with `baseTime` = 1 s (10 tenths) and
`timePerRequest` = 0.1 s (1 tenth) fails only once the clock has read more
than 15 tenths = 1.5 s
(and `1.0f + 0.1f·5` is exactly `1.5` in IEEE float too).  On timeout it
throws a generic `runtime_error` carrying only the string "timeout": the
per-entry finished flags survive in the member batch state, but the failure
report does NOT identify which entries remain unfinished. -/
theorem handleRequests_timeout_only_past_deadline (oracle : Nat → List Nat → Ack)
    (elapsedAt : Nat → ℤ) (baseTime timePerRequest : ℤ) (fuel : Nat)
    (rs : List BatchRequest) (m : String)
    (h : (handleRequests oracle elapsedAt baseTime timePerRequest fuel rs).1
      = ReqOutcome.timeout m) :
    m = "timeout" ∧
    ∃ k, elapsedAt k > baseTime + timePerRequest * (rs.length : ℤ) :=
  handleRequestsLoop_timeout_elapsed oracle elapsedAt
    (baseTime + timePerRequest * (rs.length : ℤ)) fuel false 0 rs 0 m h

/-- Environment of C4's witness: the spec's timeout scenario — a batch of 5
one-byte-match requests where the third entry never acks. -/
def c4batch : List BatchRequest :=
  mkBatch [([0x51, 0], 1), ([0x51, 1], 1), ([0x51, 2], 1),
           ([0x51, 3], 1), ([0x51, 4], 1)]

/-- Device of C4's witness: echoes every request except the third entry's,
which gets no ack; pings are answered with an unrelated platform frame. -/
def c4oracle : Nat → List Nat → Ack := fun _ p =>
  if p = [0x51, 2] then { ack := false, data := [] }
  else { ack := true, data := p }

/-- Clock of C4's witness: the first five sends are instantaneous, from the
sixth send on the clock reads 2 s (20 tenths). -/
def c4elapsed : Nat → ℤ := fun k => if k ≤ 5 then 0 else 20

/-- C4 witness: the spec's 5-entry scenario (`baseTime` = 1 s = 10 tenths,
`timePerRequest` = 0.1 s = 1 tenth, entry #3 never acks) times out, and the
theorem yields a clock reading strictly beyond the 15-tenths (1.5 s)
deadline. -/
theorem handleRequests_timeout_only_past_deadline_witness :
    "timeout" = "timeout" ∧
    ∃ k, c4elapsed k > 10 + 1 * ((c4batch).length : ℤ) :=
  handleRequests_timeout_only_past_deadline c4oracle c4elapsed 10 1 2
    c4batch "timeout" (by decide)

/-- Device of C4's counterexample: same as `c4oracle` but the FIFTH entry,
not the third, never acks. -/
def c4oracleB : Nat → List Nat → Ack := fun _ p =>
  if p = [0x51, 4] then { ack := false, data := [] }
  else { ack := true, data := p }

/-- C4 counterexample: `handleRequests` does NOT report which entries remain
unfinished on timeout.  Two runs of the same 5-entry batch — one where entry
#3 (index 2) never acks, one where entry #5 (index 4) never acks — throw the
IDENTICAL error (`runtime_error("timeout")`, Crazyflie.cpp:622/639, carrying
only the string "timeout"), even though their sets of unfinished entries
differ: the failure report cannot identify the unfinished entries.  (The
per-entry finished flags survive only in the member batch state, which the
throw does not report.) -/
theorem handleRequests_timeout_report_counterexample :
    (handleRequests c4oracle c4elapsed 10 1 2 c4batch).1
      = ReqOutcome.timeout "timeout" ∧
    (handleRequests c4oracleB c4elapsed 10 1 2 c4batch).1
      = ReqOutcome.timeout "timeout" ∧
    (handleRequests c4oracle c4elapsed 10 1 2 c4batch).1
      = (handleRequests c4oracleB c4elapsed 10 1 2 c4batch).1 ∧
    ((handleRequests c4oracle c4elapsed 10 1 2 c4batch).2.getD 2 default).finished
      = false ∧
    ((handleRequests c4oracle c4elapsed 10 1 2 c4batch).2.getD 4 default).finished
      = true ∧
    ((handleRequests c4oracleB c4elapsed 10 1 2 c4batch).2.getD 2 default).finished
      = true ∧
    ((handleRequests c4oracleB c4elapsed 10 1 2 c4batch).2.getD 4 default).finished
      = false := by
  decide

/-- C9 (amended): if either batch of TOC discovery (`requestLogToc`,
Crazyflie.cpp:153-181; `requestParamToc`, Crazyflie.cpp:183-221) times out,
the connection's TOC state is left exactly as it was before the call — NOT
resized: the `resize`-and-fill code (Crazyflie.cpp:172-180 / 205-220) sits
after the `handleRequests` call whose throw aborts the function, so on
timeout it never runs.  Callers must still treat discovery as
all-or-nothing: the surviving TOC is stale, not partially rebuilt. -/
theorem requestToc_timeout_leaves_toc_unchanged (envI envIt : TocEnv)
    (b p : ℤ) (fuel : Nat) (st : List LogTocEntry)
    (entries : List ParamTocEntry) (vals : List (Nat × ParamValue))
    (m m2 : String) :
    ((requestLogToc envI envIt b p fuel st).1 = ReqOutcome.timeout m →
      (requestLogToc envI envIt b p fuel st).2 = st) ∧
    ((requestParamToc envI envIt b p fuel entries vals).1 = ReqOutcome.timeout m2 →
      (requestParamToc envI envIt b p fuel entries vals).2 = (entries, vals)) := by
  constructor
  · intro h
    unfold requestLogToc at h ⊢
    cases h1 : handleRequests envI.oracle envI.elapsedAt b p fuel
        (mkBatch [(logInfoReqBytes, 1)]) with
    | mk out1 rs1 =>
      cases out1 with
      | done =>
        simp only [] at h ⊢
        cases h2 : handleRequests envIt.oracle envIt.elapsedAt b p fuel
            (mkBatch ((List.range ((rs1.getD 0 default).ack.data.getD 2 0)).map
              (fun i => (logItemReqBytes i, 2)))) with
        | mk out2 rs2 =>
          cases out2 <;> simp_all
      | timeout m1 => rfl
      | fuelOut => rw [h1] at h
  · intro h
    unfold requestParamToc at h ⊢
    cases h1 : handleRequests envI.oracle envI.elapsedAt b p fuel
        (mkBatch [(paramInfoReqBytes, 1)]) with
    | mk out1 rs1 =>
      cases out1 with
      | done =>
        simp only [] at h ⊢
        cases h2 : handleRequests envIt.oracle envIt.elapsedAt b p fuel
            (mkBatch ((List.range ((rs1.getD 0 default).ack.data.getD 2 0)).flatMap
              (fun i => [(paramItemReqBytes i, 2), (paramReadReqBytes i, 1)]))) with
        | mk out2 rs2 =>
          cases out2 <;> simp_all
      | timeout m1 => rfl
      | fuelOut => rw [h1] at h

/-- Info-phase device of C9's witness: echoes the first two request bytes
and reports 2 TOC entries. -/
def c9envInfo : TocEnv :=
  ⟨fun _ p => { ack := true, data := p.take 2 ++ [2] }, fun _ => 0⟩

/-- Item-phase device of C9's witness: never acks, and the clock jumps past
any deadline from the third send on. -/
def c9envItems : TocEnv :=
  ⟨fun _ _ => { ack := false, data := [] }, fun k => if k ≤ 2 then 0 else 100⟩

/-- C9 witness: with the device reporting 2 entries and the item batches
never acked, both discovery runs time out and leave the TOC state exactly
as before the call. -/
theorem requestToc_timeout_leaves_toc_unchanged_witness :
    (requestLogToc c9envInfo c9envItems 10 1 2 []).2 = [] ∧
    (requestParamToc c9envInfo c9envItems 10 1 2 [] []).2 = ([], []) :=
  ⟨(requestToc_timeout_leaves_toc_unchanged c9envInfo c9envItems 10 1 2 []
      [] [] "timeout" "timeout").1 (by decide),
   (requestToc_timeout_leaves_toc_unchanged c9envInfo c9envItems 10 1 2 []
      [] [] "timeout" "timeout").2 (by decide)⟩

/-- C9 counterexample: the claim says a partway item-batch timeout leaves
the TOC "partially populated, resized-but-not-filled".  Concretely: the
info batch succeeds and the device reports 2 entries, the item batch times
out — and the final TOC list is `[]`, identical to its pre-call value and
in particular NOT resized to length 2. -/
theorem requestLogToc_timeout_not_resized_counterexample :
    requestLogToc c9envInfo c9envItems 10 1 2 []
      = (ReqOutcome.timeout "timeout", []) ∧
    (handleRequests c9envInfo.oracle c9envInfo.elapsedAt 10 1 2
      (mkBatch [(logInfoReqBytes, 1)])).1 = ReqOutcome.done ∧
    ((handleRequests c9envInfo.oracle c9envInfo.elapsedAt 10 1 2
      (mkBatch [(logInfoReqBytes, 1)])).2.getD 0 default).ack.data.getD 2 0
      = 2 ∧
    ([] : List LogTocEntry).length ≠ 2 := by
  decide

/-! ## Helper lemmas for the all-acks-match run of `handleRequests` -/

/-- The batch with every entry matched: entry `j` (at running index `k0 + j`)
is marked with the ack its own packet received. -/
def markAll (oracle : Nat → List Nat → Ack) : Nat → List BatchRequest → List BatchRequest
  | _, [] => []
  | k, r :: rest => mark r (oracle k r.request) :: markAll oracle (k + 1) rest

theorem markAll_length (oracle : Nat → List Nat → Ack) :
    ∀ (k : Nat) (rs : List BatchRequest), (markAll oracle k rs).length = rs.length
  | _, [] => rfl
  | k, r :: rs => by simp [markAll, markAll_length oracle (k + 1) rs]

theorem mem_markAll_finished (oracle : Nat → List Nat → Ack) :
    ∀ (k : Nat) (rs : List BatchRequest) (r : BatchRequest),
    r ∈ markAll oracle k rs → r.finished = true
  | k, [], r, h => absurd h (by simp [markAll])
  | k, x :: rs, r, h => by
    rcases List.mem_cons.mp h with rfl | hm
    · rfl
    · exact mem_markAll_finished oracle (k + 1) rs r hm

theorem markAll_append (oracle : Nat → List Nat → Ack) :
    ∀ (l : List BatchRequest) (k : Nat) (t : BatchRequest),
    markAll oracle k (l ++ [t])
      = markAll oracle k l ++ [mark t (oracle (k + l.length) t.request)]
  | [], k, t => by simp [markAll]
  | r :: l, k, t => by
    have h := markAll_append oracle l (k + 1) t
    rw [show k + 1 + l.length = k + (l.length + 1) by omega] at h
    simp only [List.cons_append, markAll, List.length_cons, List.append_eq, h]

theorem markAll_getD (oracle : Nat → List Nat → Ack) :
    ∀ (l : List BatchRequest) (k0 j : Nat), j < l.length →
    (markAll oracle k0 l).getD j default
      = mark (l.getD j default) (oracle (k0 + j) (l.getD j default).request)
  | [], _, j, h => absurd h (by simp)
  | r :: l, k0, 0, _ => by simp [markAll]
  | r :: l, k0, j + 1, h => by
    have := markAll_getD oracle l (k0 + 1) j (by simpa using h)
    simp only [markAll, List.getD_cons_succ, this]
    rw [show k0 + 1 + j = k0 + (j + 1) by omega]

theorem set_append_cons {α : Type} :
    ∀ (l : List α) (x t : α) (r : List α),
    (l ++ t :: r).set l.length x = l ++ x :: r
  | [], x, t, r => rfl
  | y :: l, x, t, r => by simp [List.set, set_append_cons l x t r]

theorem getD_append_cons :
    ∀ (l : List BatchRequest) (t : BatchRequest) (r : List BatchRequest),
    (l ++ t :: r).getD l.length default = t
  | [], t, r => rfl
  | y :: l, t, r => by simpa using getD_append_cons l t r

theorem mkBatch_eq_map_aux :
    ∀ (specs : List (List Nat × Nat)) (init : List BatchRequest),
    specs.foldl (fun b s => addRequest b s.1 s.2) init
      = init ++ specs.map (fun s =>
          { request := s.1, numBytesToMatch := s.2,
            finished := false, ack := default })
  | [], init => by simp
  | s :: specs, init => by
    simp only [List.foldl_cons, List.map_cons]
    rw [mkBatch_eq_map_aux specs (addRequest init s.1 s.2)]
    simp [addRequest]

/-- `startBatchRequest` followed by `addRequest` per spec produces exactly
the list of fresh (unfinished) entries. -/
theorem mkBatch_eq_map (specs : List (List Nat × Nat)) :
    mkBatch specs = specs.map (fun s =>
      { request := s.1, numBytesToMatch := s.2,
        finished := false, ack := default }) := by
  simpa [mkBatch, startBatchRequest] using mkBatch_eq_map_aux specs []

theorem mkBatch_finished (specs : List (List Nat × Nat)) :
    ∀ r ∈ mkBatch specs, r.finished = false := by
  intro r hr
  rw [mkBatch_eq_map] at hr
  rcases List.mem_map.mp hr with ⟨s, _, rfl⟩
  rfl

theorem sendPassAux_all (oracle : Nat → List Nat → Ack) (elapsedAt : Nat → ℤ)
    (deadline : ℤ) (rs0 : List BatchRequest)
    (hgood : ∀ k, k < rs0.length →
      (oracle k ((rs0.getD k default).request)).ack = true ∧
      staticMatchB (oracle k ((rs0.getD k default).request))
        (rs0.getD k default) = true)
    (hunf : ∀ r ∈ rs0, r.finished = false)
    (htime : ∀ k, k ≤ rs0.length → ¬ elapsedAt k > deadline) :
    ∀ (todo done : List BatchRequest), done ++ todo = rs0 →
    sendPassAux oracle elapsedAt deadline todo.length done.length done.length
      (markAll oracle 0 done ++ todo) done.length
      = Except.ok (markAll oracle 0 rs0, rs0.length, rs0.length)
  | [], done, heq => by
    rw [List.append_nil] at heq
    subst heq
    simp [sendPassAux]
  | t :: todo, done, heq => by
    have hlen : (markAll oracle 0 done).length = done.length :=
      markAll_length oracle 0 done
    have hidx : (markAll oracle 0 done ++ t :: todo)[done.length]? = some t := by
      rw [List.getElem?_append_right (le_of_eq hlen)]
      simp [hlen]
    have htmem : t ∈ rs0 := by
      rw [← heq]
      exact List.mem_append_right _ (List.mem_cons_self t todo)
    have htf : t.finished = false := hunf t htmem
    have hget : rs0.getD done.length default = t := by
      rw [← heq]
      exact getD_append_cons done t todo
    have hklt : done.length < rs0.length := by
      rw [← heq]
      simp only [List.length_append, List.length_cons]
      omega
    have hg := hgood done.length hklt
    rw [hget] at hg
    have hes : done.length < (markAll oracle 0 done ++ t :: todo).length := by
      simp only [List.length_append, List.length_cons, hlen]
      omega
    have hgete : (markAll oracle 0 done ++ t :: todo).get ⟨done.length, hes⟩ = t := by
      simp only [List.get_eq_getElem]
      rw [List.getElem_append_right (le_of_eq hlen)]
      simp [hlen]
    have hscan : batchScan (oracle done.length t.request)
        (markAll oracle 0 done ++ t :: todo)
        = some (markAll oracle 0 done
            ++ mark t (oracle done.length t.request) :: todo) := by
      have hhit := batchScan_hit (oracle done.length t.request)
        (markAll oracle 0 done ++ t :: todo) done.length hes
        (fun j hj => by
          have hjlt : j < (markAll oracle 0 done).length := by omega
          have hmem : (markAll oracle 0 done ++ t :: todo).get
              ⟨j, Nat.lt_trans hj hes⟩ ∈ markAll oracle 0 done := by
            simp only [List.get_eq_getElem]
            rw [List.getElem_append_left hjlt]
            exact List.getElem_mem hjlt
          have hfin := mem_markAll_finished oracle 0 done _ hmem
          simp only [List.get_eq_getElem] at hfin
          simp [hfin])
        (by rw [hgete]; exact hg.2)
        (by rw [hgete]; exact htf)
      rw [hgete] at hhit
      rw [hhit]
      congr 1
      have hset := set_append_cons (markAll oracle 0 done)
        (mark t (oracle done.length t.request)) t todo
      rw [hlen] at hset
      exact hset
    have hrec := sendPassAux_all oracle elapsedAt deadline rs0 hgood hunf htime
      todo (done ++ [t]) (by rw [← heq]; simp)
    have hma : markAll oracle 0 (done ++ [t]) ++ todo
        = markAll oracle 0 done
            ++ mark t (oracle done.length t.request) :: todo := by
      rw [markAll_append oracle done 0 t]
      simp
    rw [hma] at hrec
    simp only [List.length_append, List.length_cons, List.length_nil] at hrec
    have hnot : ¬ elapsedAt (done.length + 1) > deadline :=
      htime (done.length + 1) (by omega)
    simp only [List.length_cons, sendPassAux, hidx, htf, Bool.false_eq_true,
      if_false, handleBatchAck, hg.1, if_true, hscan, hnot]
    exact hrec

theorem sendPass_full (oracle : Nat → List Nat → Ack) (elapsedAt : Nat → ℤ)
    (deadline : ℤ) (rs0 : List BatchRequest)
    (hgood : ∀ k, k < rs0.length →
      (oracle k ((rs0.getD k default).request)).ack = true ∧
      staticMatchB (oracle k ((rs0.getD k default).request))
        (rs0.getD k default) = true)
    (hunf : ∀ r ∈ rs0, r.finished = false)
    (htime : ∀ k, k ≤ rs0.length → ¬ elapsedAt k > deadline) :
    sendPassAux oracle elapsedAt deadline rs0.length 0 0 rs0 0
      = Except.ok (markAll oracle 0 rs0, rs0.length, rs0.length) := by
  have h := sendPassAux_all oracle elapsedAt deadline rs0 hgood hunf htime rs0 [] rfl
  simpa [markAll] using h

/-- C1: for every batch of `N ≥ 0` entries built by
`startBatchRequest`/`addRequest`, if every sent packet receives before the
deadline an ack whose header byte equals the request's header byte and whose
first `numBytesToMatch` payload bytes equal the request's (`hgood`, with the
clock never past the deadline while the batch is in flight, `htime`), then
`handleRequests` returns normally after its first sending pass with all `N`
entries marked finished, each entry's recorded ack being exactly the ack its
own packet received (so no recorded ack is ever overwritten: an entry is
marked finished when its ack is recorded, and `handleBatchAck` never touches
finished entries, Crazyflie.cpp:658). -/
theorem handleRequests_all_acked (oracle : Nat → List Nat → Ack)
    (elapsedAt : Nat → ℤ) (baseTime timePerRequest : ℤ) (fuel : Nat)
    (specs : List (List Nat × Nat))
    (hgood : ∀ k, k < (mkBatch specs).length →
      (oracle k (((mkBatch specs).getD k default).request)).ack = true ∧
      staticMatchB (oracle k (((mkBatch specs).getD k default).request))
        ((mkBatch specs).getD k default) = true)
    (htime : ∀ k, k ≤ (mkBatch specs).length →
      ¬ elapsedAt k > baseTime + timePerRequest * ((mkBatch specs).length : ℤ)) :
    handleRequests oracle elapsedAt baseTime timePerRequest (fuel + 1)
      (mkBatch specs)
      = (ReqOutcome.done, markAll oracle 0 (mkBatch specs)) ∧
    (∀ k, k < (mkBatch specs).length →
      ((markAll oracle 0 (mkBatch specs)).getD k default).finished = true ∧
      ((markAll oracle 0 (mkBatch specs)).getD k default).ack
        = oracle k (((mkBatch specs).getD k default).request)) := by
  constructor
  · have hpass := sendPass_full oracle elapsedAt
      (baseTime + timePerRequest * ((mkBatch specs).length : ℤ))
      (mkBatch specs) hgood (mkBatch_finished specs) htime
    simp only [handleRequests, handleRequestsLoop, Bool.false_eq_true,
      if_false, hpass, markAll_length, if_pos rfl]
    simp
  · intro k hk
    rw [markAll_getD oracle (mkBatch specs) 0 k hk]
    refine ⟨rfl, ?_⟩
    simp [mark, Nat.zero_add]

/-- Device of C1's witness: echoes every packet with one extra byte. -/
def c1oracle : Nat → List Nat → Ack := fun _ p => { ack := true, data := p ++ [7] }

/-- C1 witness: a concrete 2-entry batch where every packet is acked at once
finishes in one pass with each entry holding its own ack. -/
theorem handleRequests_all_acked_witness :
    handleRequests c1oracle (fun _ => 0) 10 1 1
      (mkBatch [([0x51, 0], 1), ([0x51, 1], 1)])
      = (ReqOutcome.done,
         markAll c1oracle 0 (mkBatch [([0x51, 0], 1), ([0x51, 1], 1)])) :=
  (handleRequests_all_acked c1oracle (fun _ => 0) 10 1 0
    [([0x51, 0], 1), ([0x51, 1], 1)] (by decide) (by decide)).1

/-! ## Order-independence of the batch matcher -/

/-- One delivery step: `handleBatchAck` on the batch state, also counting
how many acks fell through to `handleAck`. -/
def hbStep (s : List BatchRequest × Nat × Nat) (a : Ack) :
    List BatchRequest × Nat × Nat :=
  ((handleBatchAck a s.1 s.2.1).1, (handleBatchAck a s.1 s.2.1).2.1,
    s.2.2 + (if (handleBatchAck a s.1 s.2.1).2.2 then 1 else 0))

/-- Delivering a list of acks to the batch matcher one at a time. -/
def deliverAll (acks : List Ack) (s : List BatchRequest × Nat × Nat) :
    List BatchRequest × Nat × Nat :=
  acks.foldl hbStep s

/-- The batch state after the acks of `acks` have each been matched to the
(unique) entry they statically match: entry `r` is marked with the first ack
of `acks` matching it, if any. -/
def matchedState (reqs : List BatchRequest) (acks : List Ack) :
    List BatchRequest :=
  reqs.map (fun r =>
    match acks.find? (fun a => staticMatchB a r) with
    | some a => mark r a
    | none => r)

theorem staticMatchB_matched (acks : List Ack) (a : Ack) (r : BatchRequest) :
    staticMatchB a (match acks.find? (fun x => staticMatchB x r) with
      | some x => mark r x
      | none => r) = staticMatchB a r := by
  cases acks.find? (fun x => staticMatchB x r) <;> rfl

theorem countP_matchedState (reqs : List BatchRequest) (acks : List Ack)
    (a : Ack) :
    (matchedState reqs acks).countP (fun r => staticMatchB a r)
      = reqs.countP (fun r => staticMatchB a r) := by
  unfold matchedState
  rw [List.countP_map]
  apply List.countP_congr
  intro r _
  simp only [Function.comp_apply, staticMatchB_matched acks a r]

theorem matchedState_nil (reqs : List BatchRequest) :
    matchedState reqs [] = reqs := by
  unfold matchedState
  simp only [List.find?_nil]
  exact List.map_id' reqs

theorem countP_one_get {α : Type} (p : α → Bool) :
    ∀ (l : List α), l.countP p = 1 →
    ∃ e, ∃ he : e < l.length, p (l.get ⟨e, he⟩) = true ∧
      ∀ j (hj : j < l.length), j ≠ e → p (l.get ⟨j, hj⟩) = false
  | [], h => by simp [List.countP_nil] at h
  | x :: l, h => by
    rw [List.countP_cons] at h
    by_cases hx : p x = true
    · have hl : l.countP p = 0 := by
        rw [hx] at h
        simpa using h
      refine ⟨0, Nat.succ_pos _, hx, ?_⟩
      intro j hj hne
      cases j with
      | zero => exact absurd rfl hne
      | succ j =>
        have hall := List.countP_eq_zero.mp hl
        have hmem : l.get ⟨j, Nat.lt_of_succ_lt_succ hj⟩ ∈ l :=
          List.get_mem l _ _
        have := hall _ hmem
        simpa using this
    · have hx' : p x = false := Bool.eq_false_iff.mpr hx
      have hl : l.countP p = 1 := by
        rw [hx'] at h
        simpa using h
      obtain ⟨e, he, hpe, hothers⟩ := countP_one_get p l hl
      refine ⟨e + 1, Nat.succ_lt_succ he, hpe, ?_⟩
      intro j hj hne
      cases j with
      | zero => exact hx'
      | succ j =>
        exact hothers j (Nat.lt_of_succ_lt_succ hj)
          (fun hh => hne (by rw [hh]))

theorem find?_as_filter {α : Type} (p : α → Bool) :
    ∀ (l : List α), l.find? p = (l.filter p).head?
  | [] => rfl
  | x :: l => by
    by_cases hx : p x = true
    · simp [List.find?_cons_of_pos _ hx, List.filter_cons_of_pos hx]
    · have hx' : p x = false := Bool.eq_false_iff.mpr hx
      rw [List.find?_cons_of_neg _ hx, find?_as_filter p l]
      congr 1
      rw [List.filter_cons]
      simp [hx']

theorem find?_perm_unique {α : Type} (p : α → Bool) {l l' : List α}
    (hperm : l.Perm l') (hcount : l.countP p ≤ 1) :
    l.find? p = l'.find? p := by
  rw [find?_as_filter, find?_as_filter]
  have hpf : (l.filter p).Perm (l'.filter p) := hperm.filter p
  have hlen : (l.filter p).length ≤ 1 := by
    rw [← List.countP_eq_length_filter]
    exact hcount
  cases hf : l.filter p with
  | nil =>
    rw [hf] at hpf
    rw [(List.Perm.eq_nil hpf.symm : l'.filter p = [])]
  | cons x xs =>
    rw [hf] at hpf hlen
    have hxs : xs = [] := by
      cases xs with
      | nil => rfl
      | cons _ _ => simp at hlen
    subst hxs
    rw [(List.perm_singleton.mp hpf.symm : l'.filter p = [x])]

theorem deliver_step (reqs : List BatchRequest)
    (hunf : ∀ r ∈ reqs, r.finished = false)
    (done : List Ack) (a : Ack) (rest : List Ack)
    (H1 : ∀ x ∈ done ++ a :: rest, x.ack = true ∧
      reqs.countP (fun r => staticMatchB x r) = 1)
    (H2 : ∀ r ∈ reqs, (done ++ a :: rest).countP
      (fun x => staticMatchB x r) ≤ 1) :
    hbStep (matchedState reqs done, done.length, 0) a
      = (matchedState reqs (done ++ [a]), done.length + 1, 0) := by
  obtain ⟨hack, hcnt⟩ := H1 a (by simp)
  have hcnt' : (matchedState reqs done).countP (fun r => staticMatchB a r) = 1 := by
    rw [countP_matchedState]
    exact hcnt
  obtain ⟨e, he, hpe, hothers⟩ :=
    countP_one_get (fun r => staticMatchB a r) (matchedState reqs done) hcnt'
  have hlenm : (matchedState reqs done).length = reqs.length := by
    simp [matchedState]
  have he' : e < reqs.length := hlenm ▸ he
  have hgete : (matchedState reqs done).get ⟨e, he⟩
      = match done.find? (fun x => staticMatchB x (reqs.get ⟨e, he'⟩)) with
        | some x => mark (reqs.get ⟨e, he'⟩) x
        | none => reqs.get ⟨e, he'⟩ := by
    simp [matchedState]
  have hse : staticMatchB a (reqs.get ⟨e, he'⟩) = true := by
    have h := hpe
    rw [hgete] at h
    rwa [staticMatchB_matched] at h
  have hde : done.find? (fun x => staticMatchB x (reqs.get ⟨e, he'⟩)) = none := by
    have hmem : reqs.get ⟨e, he'⟩ ∈ reqs := List.get_mem reqs _ _
    have h2 := H2 _ hmem
    rw [List.countP_append, List.countP_cons, hse] at h2
    simp only [if_true] at h2
    have hz : done.countP (fun x => staticMatchB x (reqs.get ⟨e, he'⟩)) = 0 := by
      omega
    rw [List.find?_eq_none]
    intro x hx
    have := List.countP_eq_zero.mp hz x hx
    simpa using this
  have hgete2 : (matchedState reqs done).get ⟨e, he⟩ = reqs.get ⟨e, he'⟩ := by
    rw [hgete, hde]
  have hfin : ((matchedState reqs done).get ⟨e, he⟩).finished = false := by
    rw [hgete2]
    exact hunf _ (List.get_mem reqs _ _)
  have hscan := batchScan_hit a (matchedState reqs done) e he
    (fun j hj => by
      have hne := hothers j (Nat.lt_trans hj he) (Nat.ne_of_lt hj)
      simp only [List.get_eq_getElem] at hne
      simp [hne])
    hpe hfin
  have hset : (matchedState reqs done).set e
      (mark ((matchedState reqs done).get ⟨e, he⟩) a)
      = matchedState reqs (done ++ [a]) := by
    rw [hgete2]
    apply List.ext_getElem
    · simp [matchedState]
    · intro j hj1 hj2
      have hjr : j < reqs.length := by
        simpa [matchedState] using hj2
      rw [List.getElem_set]
      by_cases hje : e = j
      · rw [if_pos hje]
        subst hje
        have hse2 : staticMatchB a reqs[e] = true := hse
        have hde2 : List.find? (fun x => staticMatchB x reqs[e]) done = none := hde
        simp only [matchedState, List.getElem_map, List.find?_append, hde2,
          Option.none_or]
        simp [List.find?, hse2, mark]
      · rw [if_neg hje]
        have hje' : j ≠ e := fun hh => hje hh.symm
        have hjm : j < (matchedState reqs done).length := by
          rw [hlenm]
          exact hjr
        have hnm := hothers j hjm hje'
        have hnmr : staticMatchB a (reqs.get ⟨j, hjr⟩) = false := by
          have h := hnm
          have hg : (matchedState reqs done).get ⟨j, hjm⟩
              = match done.find? (fun x => staticMatchB x (reqs.get ⟨j, hjr⟩)) with
                | some x => mark (reqs.get ⟨j, hjr⟩) x
                | none => reqs.get ⟨j, hjr⟩ := by
            simp [matchedState]
          rw [hg] at h
          rwa [staticMatchB_matched] at h
        have hnmr2 : staticMatchB a reqs[j] = false := hnmr
        simp only [matchedState, List.getElem_map, List.find?_append]
        simp [List.find?, hnmr2, Option.or_none]
  simp only [hbStep, handleBatchAck, hack, if_true, hscan]
  rw [hset]
  simp

theorem deliverAll_char (reqs : List BatchRequest)
    (hunf : ∀ r ∈ reqs, r.finished = false) :
    ∀ (rest done : List Ack),
    (∀ x ∈ done ++ rest, x.ack = true ∧
      reqs.countP (fun r => staticMatchB x r) = 1) →
    (∀ r ∈ reqs, (done ++ rest).countP (fun x => staticMatchB x r) ≤ 1) →
    deliverAll rest (matchedState reqs done, done.length, 0)
      = (matchedState reqs (done ++ rest), done.length + rest.length, 0)
  | [], done, _, _ => by simp [deliverAll]
  | a :: rest, done, H1, H2 => by
    have hstep := deliver_step reqs hunf done a rest H1 H2
    have hrec := deliverAll_char reqs hunf rest (done ++ [a])
      (by
        intro x hx
        apply H1
        simpa [List.append_assoc] using hx)
      (by
        intro r hr
        have h := H2 r hr
        simpa [List.append_assoc] using h)
    show List.foldl hbStep (matchedState reqs done, done.length, 0) (a :: rest)
      = (matchedState reqs (done ++ a :: rest), done.length + (rest.length + 1), 0)
    rw [List.foldl_cons, hstep]
    simp only [List.length_append, List.length_cons, List.length_nil,
      List.append_assoc, List.singleton_append] at hrec
    show deliverAll rest (matchedState reqs (done ++ [a]), done.length + 1, 0) = _
    rw [show (done ++ [a] : List Ack) = done ++ [a] from rfl]
    have hl : (done ++ [a] : List Ack).length = done.length + 1 := by simp
    rw [← hl]
    rw [deliverAll_char reqs hunf rest (done ++ [a])
      (by
        intro x hx
        apply H1
        simpa [List.append_assoc] using hx)
      (by
        intro r hr
        have h := H2 r hr
        simpa [List.append_assoc] using h)]
    simp [List.append_assoc]
    omega

/-- C3: ack matching is order-independent.  If every ack in the list is
successful and statically matches (header byte plus `numBytesToMatch`-byte
payload prefix) exactly one batch entry, and no entry is matched by two acks
(so throughout any delivery order each ack matches exactly one not-yet
finished entry), then delivering the acks to `handleBatchAck` in any
permutation produces the same final batch state: the same set of finished
entries with the same recorded acks (and the same finished/forwarded
counters). -/
theorem handleBatchAck_order_independent (reqs : List BatchRequest)
    (acks acks' : List Ack) (hperm : acks.Perm acks')
    (hunf : ∀ r ∈ reqs, r.finished = false)
    (H1 : ∀ a ∈ acks, a.ack = true ∧
      reqs.countP (fun r => staticMatchB a r) = 1)
    (H2 : ∀ r ∈ reqs, acks.countP (fun a => staticMatchB a r) ≤ 1) :
    deliverAll acks (reqs, 0, 0) = deliverAll acks' (reqs, 0, 0) := by
  have H1' : ∀ a ∈ acks', a.ack = true ∧
      reqs.countP (fun r => staticMatchB a r) = 1 :=
    fun a ha => H1 a (hperm.mem_iff.mpr ha)
  have H2' : ∀ r ∈ reqs, acks'.countP (fun a => staticMatchB a r) ≤ 1 := by
    intro r hr
    rw [← hperm.countP_eq]
    exact H2 r hr
  have e1 := deliverAll_char reqs hunf acks [] (by simpa using H1)
    (by simpa using H2)
  have e2 := deliverAll_char reqs hunf acks' [] (by simpa using H1')
    (by simpa using H2')
  simp only [matchedState_nil, List.nil_append, List.length_nil,
    Nat.zero_add] at e1 e2
  rw [e1, e2]
  have hms : matchedState reqs acks = matchedState reqs acks' := by
    unfold matchedState
    apply List.map_congr_left
    intro r hr
    rw [find?_perm_unique (fun a => staticMatchB a r) hperm (H2 r hr)]
  rw [hms, hperm.length_eq]

/-- C3 witness: two entries with distinct headers, their two acks delivered
in both orders, reach the same final state. -/
theorem handleBatchAck_order_independent_witness :
    deliverAll [⟨true, [2, 6]⟩, ⟨true, [1, 5]⟩]
      (mkBatch [([1, 5], 1), ([2, 6], 1)], 0, 0)
      = deliverAll [⟨true, [1, 5]⟩, ⟨true, [2, 6]⟩]
        (mkBatch [([1, 5], 1), ([2, 6], 1)], 0, 0) :=
  handleBatchAck_order_independent (mkBatch [([1, 5], 1), ([2, 6], 1)])
    [⟨true, [2, 6]⟩, ⟨true, [1, 5]⟩] [⟨true, [1, 5]⟩, ⟨true, [2, 6]⟩]
    (List.Perm.swap (⟨true, [1, 5]⟩ : Ack) (⟨true, [2, 6]⟩ : Ack) [])
    (by decide) (by decide) (by decide)
